import Mathlib

/-!
# Verification of the IR-Memo orchestration core

Shallow embedding of `backend/agents/{sec_edgar,orchestrator,drafting,
market_data,research,forecast}.py`.  External I/O (HTTP fetches, DuckDuckGo,
the Claude API, yfinance, the Excel reader, and stdlib `re.search`/`strptime`
calls whose outcome feeds no verified property) is modelled as environment
records passed to the translated control flow; every branch, store mutation
and emitted event of the Python code is translated directly.  Machine floats
are modelled by `Rat`; Python dicts by association lists with first-key
lookup and in-place upsert.
-/

namespace IRMemo

/-! ## Python string primitives (ASCII model) -/

/-- Python whitespace test (`\s`, `str.split()`, `str.strip()`), ASCII range. -/
def isPySpace (c : Char) : Bool :=
  c = ' ' ∨ c = '\t' ∨ c = '\n' ∨ c = '\x0d' ∨ c = '\x0b' ∨ c = '\x0c'

/-- `[A-Z]` character class. -/
def isUpperAZ (c : Char) : Bool := 'A' ≤ c ∧ c ≤ 'Z'

/-- `str.strip()`: drop Python whitespace from both ends. -/
def pyStrip (s : List Char) : List Char :=
  ((s.dropWhile isPySpace).reverse.dropWhile isPySpace).reverse

/-- Does `needle` occur as a contiguous substring of `hay` (Python `in`)? -/
def containsSub (hay needle : List Char) : Bool :=
  needle.isPrefixOf hay ||
    match hay with
    | [] => false
    | _ :: tl => containsSub tl needle

/-- First index at which `needle` occurs in `hay` (Python `str.find`, found case). -/
def firstIdxOfSub (hay needle : List Char) : Option Nat :=
  if needle.isPrefixOf hay then some 0
  else
    match hay with
    | [] => none
    | _ :: tl => (firstIdxOfSub tl needle).map (· + 1)

theorem length_of_isPrefixOf {α : Type} [BEq α] {l₁ l₂ : List α}
    (h : l₁.isPrefixOf l₂) : l₁.length ≤ l₂.length := by
  induction l₁ generalizing l₂ with
  | nil => simp
  | cons a as ih =>
      cases l₂ with
      | nil => simp [List.isPrefixOf] at h
      | cons b bs =>
          simp only [List.isPrefixOf, Bool.and_eq_true] at h
          simpa using ih h.2

/-- Python `str.split()` with no argument: split on whitespace runs, no
empties.  Fuelled structural recursion; each step consumes at least one
character, so fuel `s.length` never truncates. -/
def pySplitWsAux : Nat → List Char → List (List Char)
  | 0, _ => []
  | fuel + 1, s =>
      match s.dropWhile isPySpace with
      | [] => []
      | c :: tl =>
          (c :: tl.takeWhile (fun x => !isPySpace x)) ::
            pySplitWsAux fuel (tl.dropWhile (fun x => !isPySpace x))

/-- Python `str.split()` with no argument. -/
def pySplitWs (s : List Char) : List (List Char) := pySplitWsAux s.length s

/-- Split a char list at every separator satisfying `p`, keeping empty pieces
(models `re.split` on a character class, e.g. `[;,]`). -/
def splitOnPred (p : Char → Bool) (s : List Char) : List (List Char) :=
  match s with
  | [] => [[]]
  | c :: tl =>
      let rest := splitOnPred p tl
      if p c then [] :: rest
      else
        match rest with
        | [] => [[c]]
        | piece :: more => (c :: piece) :: more

/-- Python slicing `s[:n]` on strings (character based). -/
def pyTake (n : Nat) (s : String) : String := ⟨s.data.take n⟩

/-- Python `str.lower()` (ASCII model). -/
def pyLower (s : List Char) : List Char := s.map Char.toLower

/-- Fuelled body of `deleteAllSub` (each step consumes ≥ 1 character). -/
def deleteAllSubAux (old : List Char) : Nat → List Char → List Char
  | 0, s => s
  | _, [] => []
  | fuel + 1, c :: tl =>
      if old ≠ [] ∧ old.isPrefixOf (c :: tl) then
        deleteAllSubAux old fuel ((c :: tl).drop old.length)
      else c :: deleteAllSubAux old fuel tl

/-- Python `str.replace(old, new)` with `new = ""`: delete every occurrence
of `old` (used for `.replace("www.", "")`). -/
def deleteAllSub (old s : List Char) : List Char := deleteAllSubAux old s.length s

/-- Thousands grouping over reversed digits (fuelled; fuel bounds steps). -/
def groupDigitsAux : Nat → List Char → List Char
  | 0, ds => ds
  | fuel + 1, ds =>
      if ds.length ≤ 3 then ds
      else groupDigitsAux fuel (ds.drop 3) ++ [','] ++ ds.take 3

/-- Python `f"{n:,}"` for a natural number. -/
def pyCommaFmt (n : Nat) : String :=
  ⟨(groupDigitsAux (toString n).data.length (toString n).data.reverse).reverse⟩

/-! ## Rational models of Python numeric helpers -/

/-- Round-half-to-even of a rational to an integer (IEEE/Python `round` ties). -/
def halfEvenInt (q : Rat) : Int :=
  let f : Int := ⌊q⌋
  let r : Rat := q - f
  if r < 1/2 then f
  else if 1/2 < r then f + 1
  else if f % 2 = 0 then f else f + 1

/-- Python `round(x, nd)` modelled on rationals (half-to-even ties). -/
def pyRound (q : Rat) (nd : Nat) : Rat :=
  halfEvenInt (q * (10 : Rat) ^ nd) / (10 : Rat) ^ nd

/-- Round-half-away-from-zero to an integer (`decimal.ROUND_HALF_UP`). -/
def halfUpInt (q : Rat) : Int :=
  if q < 0 then -⌊-q + 1/2⌋ else ⌊q + 1/2⌋

/-- `Decimal(x).quantize(Decimal("0.01"), rounding=ROUND_HALF_UP)` on rationals. -/
def quantizeHalfUp2 (q : Rat) : Rat := (halfUpInt (q * 100) : Rat) / 100

/-! ## Association-list model of Python dicts -/

/-- Python dict assignment `d[k] = v`: replace in place if present, else append. -/
def upsert {α : Type} (k : String) (v : α) : List (String × α) → List (String × α)
  | [] => [(k, v)]
  | (k', v') :: tl => if k' = k then (k, v) :: tl else (k', v') :: upsert k v tl

theorem lookup_upsert_self {α : Type} (k : String) (v : α) (l : List (String × α)) :
    (upsert k v l).lookup k = some v := by
  induction l with
  | nil => simp [upsert, List.lookup]
  | cons hd tl ih =>
      by_cases h : hd.1 = k
      · simp [upsert, h, List.lookup]
      · have hb : (k == hd.1) = false := beq_eq_false_iff_ne.mpr (Ne.symm h)
        simp [upsert, h, List.lookup, hb, ih]

theorem lookup_upsert_ne {α : Type} (k k' : String) (v : α) (l : List (String × α))
    (h : k' ≠ k) : (upsert k v l).lookup k' = l.lookup k' := by
  have hb : (k' == k) = false := beq_eq_false_iff_ne.mpr h
  induction l with
  | nil => simp [upsert, List.lookup, hb]
  | cons hd tl ih =>
      by_cases hh : hd.1 = k
      · subst hh
        simp [upsert, List.lookup, hb]
      · simp only [upsert, if_neg hh, List.lookup]
        cases hkh : k' == hd.1 <;> simp [ih]

/-! ## Fallback resolver: `sec_edgar.get_transcript` (5-tier chain)

Each tier function (`_search_efts`, `_search_submissions`, `_search_fmp`,
`_search_transcript_web`, `_read_local_transcript`) returns
`tuple[str | None, str]` and never raises past its own boundary; its outcome
is an environment input.  The resolver's control flow is translated exactly;
alongside the result we return the trace of tiers invoked, in invocation
order, which the Python control flow determines uniquely. -/

/-- Outcome of one tier attempt: optional text plus source URL (for tier 5
the second component is the source *label*, as in `_read_local_transcript`). -/
structure TierResult where
  text : Option String
  url : String
deriving DecidableEq, Repr

/-- Python truthiness of `text : str | None` (`if text:`). -/
def truthyText : Option String → Bool
  | none => false
  | some s => s ≠ ""

/-- Environment: the outcome each tier attempt would produce if invoked. -/
structure TranscriptEnv where
  efts : TierResult
  submissions : TierResult
  fmp : TierResult
  web : TierResult
  localFile : TierResult
deriving DecidableEq, Repr

/-- The `dict` returned by `get_transcript`. -/
structure TranscriptResult where
  status : String
  transcript_text : String
  source : String
  source_url : String
  tier : Nat
  error : Option String
deriving DecidableEq, Repr

/-- The terminal "all tiers failed" payload of `get_transcript`. -/
def transcriptUnavailable : TranscriptResult :=
  { status := "error", transcript_text := "", source := "none", source_url := "",
    tier := 0,
    error := some "[Earnings call transcript not available from public sources]" }

/-- Tiers 3–5 of `get_transcript` (shared whether or not tier 2 ran). -/
def get_transcript_from3 (env : TranscriptEnv) (trace : List Nat) :
    TranscriptResult × List Nat :=
  let trace := trace ++ [3]
  if truthyText env.fmp.text then
    ({ status := "success", transcript_text := env.fmp.text.getD "",
       source := "Financial Modeling Prep API", source_url := env.fmp.url,
       tier := 3, error := none }, trace)
  else
    let trace := trace ++ [4]
    if truthyText env.web.text then
      ({ status := "success", transcript_text := env.web.text.getD "",
         source := "Web search", source_url := env.web.url,
         tier := 4, error := none }, trace)
    else
      let trace := trace ++ [5]
      if truthyText env.localFile.text then
        ({ status := "success", transcript_text := env.localFile.text.getD "",
           source := env.localFile.url, source_url := "",
           tier := 5, error := none }, trace)
      else
        (transcriptUnavailable, trace)

/-- `get_transcript(ticker, company_name)`: `cik = COMPANY_CIKS.get(ticker)`;
tier 2 is attempted only when a CIK is configured. -/
def get_transcript (cik : Option String) (env : TranscriptEnv) :
    TranscriptResult × List Nat :=
  if truthyText env.efts.text then
    ({ status := "success", transcript_text := env.efts.text.getD "",
       source := "SEC EDGAR (EFTS)", source_url := env.efts.url,
       tier := 1, error := none }, [1])
  else
    match cik with
    | some _ =>
        if truthyText env.submissions.text then
          ({ status := "success", transcript_text := env.submissions.text.getD "",
             source := "SEC EDGAR (8-K filing)", source_url := env.submissions.url,
             tier := 2, error := none }, [1, 2])
        else get_transcript_from3 env [1, 2]
    | none => get_transcript_from3 env [1]

/-- Index the five tier attempts in chain order (1-based). -/
def tierAttempt (env : TranscriptEnv) : Nat → TierResult
  | 1 => env.efts
  | 2 => env.submissions
  | 3 => env.fmp
  | 4 => env.web
  | 5 => env.localFile
  | _ => ⟨none, ""⟩

/-! ## `orchestrator._parse_ticker_changes`: regex directive extraction

The three `re.finditer` patterns are modelled exactly.  Inside each pattern
the alternations have pairwise distinct first letters and the `\s+` / `[A-Z]`
character classes are disjoint from every follow set, so Python backtracking
is deterministic and the matchers below compute the unique match (or its
absence) at a position; `{1,5}` in non-final position fails on uppercase
runs longer than 5, in final position it greedily takes `min run 5`. -/

/-- Match a literal at the head, returning the remainder. -/
def litP (pat s : List Char) : Option (List Char) :=
  if pat.isPrefixOf s then some (s.drop pat.length) else none

/-- Ordered alternation of literals (first-letter disjoint in all uses). -/
def litAlt (pats : List (List Char)) (s : List Char) : Option (List Char) :=
  match pats with
  | [] => none
  | p :: ps =>
      match litP p s with
      | some r => some r
      | none => litAlt ps s

/-- `\s+` (greedy; deterministic against the disjoint follow sets used here). -/
def wsPlus (s : List Char) : Option (List Char) :=
  match s with
  | [] => none
  | c :: tl => if isPySpace c then some (tl.dropWhile isPySpace) else none

/-- `([A-Z]{1,5})` followed by more pattern (which starts with `\s+`):
succeeds iff the uppercase run has length 1..5, capturing the whole run. -/
def tickGroupMid (s : List Char) : Option (List Char × List Char) :=
  let run := s.takeWhile isUpperAZ
  if 1 ≤ run.length ∧ run.length ≤ 5 then some (run, s.drop run.length) else none

/-- `([A-Z]{1,5})` at the end of the pattern: greedily captures `min run 5`. -/
def tickGroupEnd (s : List Char) : Option (List Char × List Char) :=
  let run := (s.takeWhile isUpperAZ).take 5
  if 1 ≤ run.length then some (run, s.drop run.length) else none

/-- `(?:REPLACE|SWAP)\s+([A-Z]{1,5})\s+(?:WITH|FOR)\s+([A-Z]{1,5})` at head. -/
def replaceStep (s : List Char) : Option ((String × String) × List Char) :=
  (litAlt ["REPLACE".data, "SWAP".data] s).bind fun r1 =>
  (wsPlus r1).bind fun r2 =>
  (tickGroupMid r2).bind fun g1 =>
  (wsPlus g1.2).bind fun r4 =>
  (litAlt ["WITH".data, "FOR".data] r4).bind fun r5 =>
  (wsPlus r5).bind fun r6 =>
  (tickGroupEnd r6).map fun g2 => ((⟨g1.1⟩, ⟨g2.1⟩), g2.2)

/-- `(?:ADD|INCLUDE)\s+([A-Z]{1,5})` at head. -/
def addStep (s : List Char) : Option (String × List Char) :=
  (litAlt ["ADD".data, "INCLUDE".data] s).bind fun r1 =>
  (wsPlus r1).bind fun r2 =>
  (tickGroupEnd r2).map fun g => ((⟨g.1⟩ : String), g.2)

/-- `(?:REMOVE|DROP|EXCLUDE)\s+([A-Z]{1,5})` at head. -/
def removeStep (s : List Char) : Option (String × List Char) :=
  (litAlt ["REMOVE".data, "DROP".data, "EXCLUDE".data] s).bind fun r1 =>
  (wsPlus r1).bind fun r2 =>
  (tickGroupEnd r2).map fun g => ((⟨g.1⟩ : String), g.2)

/-- `re.finditer`: scan left to right, non-overlapping, resuming after each
match.  Every successful step consumes at least one character, so fuel
`s.length` never truncates the scan. -/
def findAll {α : Type} (step : List Char → Option (α × List Char)) :
    Nat → List Char → List α
  | 0, _ => []
  | _, [] => []
  | fuel + 1, s@(_ :: tl) =>
      match step s with
      | some (a, rest) => a :: findAll step fuel rest
      | none => findAll step fuel tl

/-- `tickers[tickers.index(old)] = new` (guarded by `old in tickers`):
replace the first occurrence. -/
def replaceFirst (l : List String) (old new : String) : List String :=
  match l with
  | [] => []
  | x :: xs => if x = old then new :: xs else x :: replaceFirst xs old new

/-- `list.remove(old)`: delete the first occurrence. -/
def removeFirst (l : List String) (old : String) : List String :=
  match l with
  | [] => []
  | x :: xs => if x = old then xs else x :: removeFirst xs old

/-- One iteration of the replace/swap loop body. -/
def applyReplace (target : String) (st : List String × Bool) (d : String × String) :
    List String × Bool :=
  if d.1 ∈ st.1 ∧ d.1 ≠ target then (replaceFirst st.1 d.1 d.2, true) else st

/-- One iteration of the add/include loop body. -/
def applyAdd (st : List String × Bool) (new : String) : List String × Bool :=
  if new ∉ st.1 then (st.1 ++ [new], true) else st

/-- One iteration of the remove/drop/exclude loop body. -/
def applyRemove (target : String) (st : List String × Bool) (old : String) :
    List String × Bool :=
  if old ∈ st.1 ∧ old ≠ target then (removeFirst st.1 old, true) else st

/-- `_parse_ticker_changes(instruction, current_tickers)`. -/
def parse_ticker_changes (instruction : String) (current_tickers : List String) :
    List String :=
  if instruction = "" then current_tickers
  else
    let text := instruction.data.map Char.toUpper
    let target := match current_tickers with | [] => "MS" | t :: _ => t
    let reps := findAll replaceStep text.length text
    let adds := findAll addStep text.length text
    let rems := findAll removeStep text.length text
    let st1 := reps.foldl (applyReplace target) (current_tickers, false)
    let st2 := adds.foldl applyAdd st1
    let st3 := rems.foldl (applyRemove target) st2
    if st3.2 then st3.1 else current_tickers

theorem head?_replaceFirst {l : List String} {t old new : String}
    (h : l.head? = some t) (hne : old ≠ t) :
    (replaceFirst l old new).head? = some t := by
  cases l with
  | nil => simp at h
  | cons x xs =>
      simp only [List.head?_cons, Option.some.injEq] at h
      subst h
      simp [replaceFirst, if_neg (Ne.symm hne)]

theorem head?_removeFirst {l : List String} {t old : String}
    (h : l.head? = some t) (hne : old ≠ t) :
    (removeFirst l old).head? = some t := by
  cases l with
  | nil => simp at h
  | cons x xs =>
      simp only [List.head?_cons, Option.some.injEq] at h
      subst h
      simp [removeFirst, if_neg (Ne.symm hne)]

theorem applyReplace_headInv (t : String) (st : List String × Bool)
    (d : String × String) (h : st.1.head? = some t) :
    ((applyReplace t st d).1).head? = some t := by
  unfold applyReplace
  split
  · next hc => exact head?_replaceFirst h hc.2
  · exact h

theorem applyAdd_headInv (st : List String × Bool) (new : String)
    (h : st.1.head? = some t) : ((applyAdd st new).1).head? = some t := by
  unfold applyAdd
  split
  · cases hl : st.1 with
    | nil => rw [hl] at h; simp at h
    | cons x xs => rw [hl] at h; simp only [hl]; simpa using h
  · exact h

theorem applyRemove_headInv (t : String) (st : List String × Bool)
    (old : String) (h : st.1.head? = some t) :
    ((applyRemove t st old).1).head? = some t := by
  unfold applyRemove
  split
  · next hc => exact head?_removeFirst h hc.2
  · exact h

theorem foldl_headInv {β : Type} (t : String)
    (f : (List String × Bool) → β → List String × Bool)
    (hf : ∀ st b, st.1.head? = some t → ((f st b).1).head? = some t) :
    ∀ (ds : List β) (st : List String × Bool),
      st.1.head? = some t → ((ds.foldl f st).1).head? = some t := by
  intro ds
  induction ds with
  | nil => intro st h; simpa using h
  | cons d ds ih => intro st h; exact ih _ (hf st d h)

theorem parse_ticker_changes_head (instruction t : String) (ts : List String) :
    (parse_ticker_changes instruction (t :: ts)).head? = some t := by
  by_cases hi : instruction = ""
  · simp [parse_ticker_changes, hi]
  · simp only [parse_ticker_changes, if_neg hi]
    have h1 := foldl_headInv t _ (fun st d h => applyReplace_headInv t st d h)
      (findAll replaceStep (instruction.data.map Char.toUpper).length
        (instruction.data.map Char.toUpper)) ((t :: ts), false) (by simp)
    have h2 := foldl_headInv t _ (fun st b h => applyAdd_headInv st b h)
      (findAll addStep (instruction.data.map Char.toUpper).length
        (instruction.data.map Char.toUpper)) _ h1
    have h3 := foldl_headInv t _ (fun st b h => applyRemove_headInv t st b h)
      (findAll removeStep (instruction.data.map Char.toUpper).length
        (instruction.data.map Char.toUpper)) _ h2
    split
    · exact h3
    · simp

/-! ## `orchestrator._extract_domain` and `_top_sources`

`urlparse(url).netloc` is a stdlib call; it enters as the environment
function `netloc` (`none` models the `except` branch).  Everything else is
translated directly. -/

/-- A DuckDuckGo search hit (`{"title", "body", "href"}`). -/
structure SearchResult where
  title : String
  body : String
  href : String
deriving DecidableEq, Repr

/-- A provenance source entry (`{"url", "domain", "label"}`). -/
structure Source where
  url : String
  domain : String
  label : String
deriving DecidableEq, Repr

/-- `_extract_domain(url)`. -/
def extract_domain (netloc : String → Option String) (url : String) : String :=
  match netloc url with
  | some nl =>
      let d : String := ⟨deleteAllSub "www.".data nl.data⟩
      if d ≠ "" then d else pyTake 40 url
  | none => pyTake 40 url

/-- `(r.get("title", "") or domain)[:80]`. -/
def sourceLabel (r : SearchResult) (domain : String) : String :=
  pyTake 80 (if r.title = "" then domain else r.title)

/-- Loop body of `_top_sources` (tail of the traversal, with the `seen` set
and accumulated `sources`). -/
def top_sources_go (netloc : String → Option String) (maxN : Nat) :
    List SearchResult → List String → List Source → List Source
  | [], _, sources => sources
  | r :: rest, seen, sources =>
      if r.href = "" then top_sources_go netloc maxN rest seen sources
      else
        let domain := extract_domain netloc r.href
        let st :=
          if domain ≠ "" ∧ domain ∉ seen then
            (domain :: seen, sources ++ [⟨r.href, domain, sourceLabel r domain⟩])
          else (seen, sources)
        if maxN ≤ st.2.length then st.2
        else top_sources_go netloc maxN rest st.1 st.2

/-- `_top_sources(search_results, max_n)`. -/
def top_sources (netloc : String → Option String)
    (search_results : List SearchResult) (maxN : Nat) : List Source :=
  top_sources_go netloc maxN search_results [] []

/-- First-occurrence deduplication below an already-seen set (specification
helper used to state the order property of `_top_sources`). -/
def dedupFirst (seen : List String) : List String → List String
  | [] => []
  | d :: tl =>
      if d ∈ seen then dedupFirst seen tl else d :: dedupFirst (d :: seen) tl

theorem pyTake_ne_empty (n : Nat) (s : String) (h : s ≠ "") (hn : 0 < n) :
    pyTake n s ≠ "" := by
  cases s with
  | mk data =>
      cases data with
      | nil => exact absurd rfl h
      | cons c tl =>
          cases n with
          | zero => omega
          | succ m =>
              simp only [pyTake, List.take_succ_cons]
              intro he
              have : (c :: tl.take m) = ([] : List Char) := congrArg String.data he
              simp at this

theorem extract_domain_ne_empty (netloc : String → Option String) (url : String)
    (h : url ≠ "") : extract_domain netloc url ≠ "" := by
  unfold extract_domain
  cases netloc url with
  | none => exact pyTake_ne_empty 40 url h (by norm_num)
  | some nl =>
      simp only
      split
      · assumption
      · exact pyTake_ne_empty 40 url h (by norm_num)

theorem top_sources_go_domains (netloc : String → Option String) (maxN : Nat) :
    ∀ (rest : List SearchResult) (seen : List String) (sources : List Source),
      sources.length < maxN →
      (top_sources_go netloc maxN rest seen sources).map (fun s => s.domain) =
        sources.map (fun s => s.domain) ++
          (dedupFirst seen ((rest.filter (fun r => r.href ≠ "")).map
            (fun r => extract_domain netloc r.href))).take (maxN - sources.length) := by
  intro rest
  induction rest with
  | nil => intro seen sources h; simp [top_sources_go, dedupFirst]
  | cons r rest ih =>
      intro seen sources h
      by_cases hhref : r.href = ""
      · simp [top_sources_go, hhref, ih _ _ h]
      · have hdom : extract_domain netloc r.href ≠ "" :=
          extract_domain_ne_empty netloc r.href hhref
        have hfilter : List.filter (fun r => decide (r.href ≠ "")) (r :: rest) =
            r :: List.filter (fun r => decide (r.href ≠ "")) rest := by
          simp [List.filter_cons, hhref]
        rw [hfilter, List.map_cons]
        by_cases hseen : extract_domain netloc r.href ∈ seen
        · have hcond : ¬ (extract_domain netloc r.href ≠ "" ∧
              extract_domain netloc r.href ∉ seen) := by simp [hseen]
          simp only [top_sources_go, if_neg hhref, if_neg hcond]
          rw [if_neg (by omega), dedupFirst, if_pos hseen]
          exact ih _ _ h
        · have hcond : extract_domain netloc r.href ≠ "" ∧
              extract_domain netloc r.href ∉ seen := ⟨hdom, hseen⟩
          simp only [top_sources_go, if_neg hhref, if_pos hcond]
          rw [dedupFirst, if_neg hseen]
          by_cases hfull : maxN ≤ sources.length + 1
          · have hmx : maxN - sources.length = 1 := by omega
            rw [if_pos (by simpa using hfull), hmx]
            simp
          · rw [if_neg (by simp; omega)]
            rw [ih _ _ (by simp; omega)]
            rw [show maxN - sources.length = (maxN - (sources.length + 1)) + 1 by omega]
            simp [List.take_succ_cons]

theorem dedupFirst_nodup (l : List String) :
    ∀ seen, (dedupFirst seen l).Nodup ∧ ∀ d ∈ dedupFirst seen l, d ∉ seen := by
  induction l with
  | nil => intro seen; simp [dedupFirst]
  | cons d tl ih =>
      intro seen
      by_cases hs : d ∈ seen
      · simpa [dedupFirst, hs] using ih seen
      · have h1 := (ih (d :: seen)).1
        have h2 := (ih (d :: seen)).2
        refine ⟨?_, ?_⟩
        · simp only [dedupFirst, if_neg hs, List.nodup_cons]
          exact ⟨fun hc => by simpa using (h2 d hc), h1⟩
        · intro x hx
          simp only [dedupFirst, if_neg hs, List.mem_cons] at hx
          rcases hx with rfl | hx
          · exact hs
          · intro hxs
            exact h2 x hx (by simp [hxs])

theorem top_sources_go_mem (netloc : String → Option String) (maxN : Nat) :
    ∀ (rest : List SearchResult) (seen : List String) (sources : List Source)
      (s : Source), s ∈ top_sources_go netloc maxN rest seen sources →
      s ∈ sources ∨ ∃ r ∈ rest, r.href ≠ "" ∧ s.url = r.href ∧
        s.domain = extract_domain netloc r.href := by
  intro rest
  induction rest with
  | nil => intro seen sources s hs; exact Or.inl hs
  | cons r rest ih =>
      intro seen sources s hs
      by_cases hhref : r.href = ""
      · rw [top_sources_go, if_pos hhref] at hs
        rcases ih _ _ _ hs with h | ⟨r', hr', h⟩
        · exact Or.inl h
        · exact Or.inr ⟨r', List.mem_cons_of_mem _ hr', h⟩
      · simp only [top_sources_go, if_neg hhref] at hs
        split at hs
        · next hcond =>
            split at hs
            · rcases List.mem_append.mp hs with h | h
              · exact Or.inl h
              · simp only [List.mem_singleton] at h
                subst h
                exact Or.inr ⟨r, List.mem_cons_self .., hhref, rfl, rfl⟩
            · rcases ih _ _ _ hs with h | ⟨r', hr', h⟩
              · rcases List.mem_append.mp h with h | h
                · exact Or.inl h
                · simp only [List.mem_singleton] at h
                  subst h
                  exact Or.inr ⟨r, List.mem_cons_self .., hhref, rfl, rfl⟩
              · exact Or.inr ⟨r', List.mem_cons_of_mem _ hr', h⟩
        · split at hs
          · exact Or.inl hs
          · rcases ih _ _ _ hs with h | ⟨r', hr', h⟩
            · exact Or.inl h
            · exact Or.inr ⟨r', List.mem_cons_of_mem _ hr', h⟩

/-! ## `market_data.get_valuation_data` and `research._search`

yfinance's `Ticker(t).info` dict is the environment function `info`
(`none` models an exception inside `_fetch_ticker`); values are modelled by
`Rat`.  DuckDuckGo outcomes are environment values. -/

/-- The transform component of a `METRICS` entry. -/
inductive MetricTransform
  | idT
  | divYield
  | marketCap
deriving DecidableEq, Repr

/-- `None`, `lambda x: round(x, 2) if x else None`,
`lambda x: round(x / 1e9, 1) if x else None`. -/
def applyTransform : MetricTransform → Rat → Option Rat
  | .idT, x => some x
  | .divYield, x => if x ≠ 0 then some (pyRound x 2) else none
  | .marketCap, x => if x ≠ 0 then some (pyRound (x / 1000000000) 1) else none

/-- `market_data.METRICS`: (display label, yfinance key, transform). -/
def METRICS : List (String × String × MetricTransform) :=
  [("Stock Price", "currentPrice", .idT),
   ("P/E (TTM)", "trailingPE", .idT),
   ("Forward P/E", "forwardPE", .idT),
   ("Price/Book", "priceToBook", .idT),
   ("Dividend Yield", "dividendYield", .divYield),
   ("Market Cap ($B)", "marketCap", .marketCap),
   ("52W High", "fiftyTwoWeekHigh", .idT),
   ("52W Low", "fiftyTwoWeekLow", .idT)]

/-- Environment for the market-data leaf. -/
structure MarketEnv where
  info : String → Option (List (String × Rat))
  now : String

/-- `_fetch_ticker(ticker)`: an exception yields an all-`None` row. -/
def fetch_ticker (env : MarketEnv) (ticker : String) : List (String × Option Rat) :=
  match env.info ticker with
  | none => METRICS.map fun m => (m.1, none)
  | some info =>
      METRICS.map fun m =>
        (m.1, match info.lookup m.2.1 with
              | none => none
              | some v => applyTransform m.2.2 v)

/-- A `peer_median` cell: a number, the literal `"-"`, or `None`. -/
inductive MedianVal
  | num (q : Rat)
  | dash
  | null
deriving DecidableEq, Repr

/-- `statistics.median` on the rational model. -/
def pyMedian (l : List Rat) : Rat :=
  let s := l.mergeSort (fun a b => decide (a ≤ b))
  if s.length % 2 = 1 then s.getD (s.length / 2) 0
  else (s.getD (s.length / 2 - 1) 0 + s.getD (s.length / 2) 0) / 2

/-- The dict returned by `get_valuation_data`. -/
structure ValResult where
  status : String
  tickers : List (String × List (String × Option Rat))
  as_of : String
  peer_median : List (String × MedianVal)
deriving DecidableEq, Repr

/-- Python dict construction `for k, v in ps: d[k] = v` over an accumulator:
each pair is inserted with dict-assignment semantics (replace in place when
the key exists, else append). -/
def dictInsertAll {β : Type} (ps : List (String × β))
    (acc : List (String × β)) : List (String × β) :=
  ps.foldl (fun a p => upsert p.1 p.2 a) acc

theorem dictInsertAll_cons {β : Type} (p : String × β) (ps : List (String × β))
    (acc : List (String × β)) :
    dictInsertAll (p :: ps) acc = dictInsertAll ps (upsert p.1 p.2 acc) := rfl

/-- `get_valuation_data(tickers)`: parallel per-ticker fetch, then the
`data[ticker] = result` loop over the zip (dict assignment dedupes keys to
first occurrence), peer medians over `tickers[1:]`. -/
def get_valuation_data (env : MarketEnv) (tickers : List String) : ValResult :=
  let data := dictInsertAll (tickers.map fun t => (t, fetch_ticker env t)) []
  let peer_tickers := tickers.tail
  let peer_median := METRICS.map fun m =>
    if m.1 = "52W High" ∨ m.1 = "52W Low" then (m.1, MedianVal.dash)
    else
      let vals := peer_tickers.filterMap fun pt =>
        ((data.lookup pt).getD []).lookup m.1 |>.join
      if vals ≠ [] then (m.1, MedianVal.num (quantizeHalfUp2 (pyMedian vals)))
      else (m.1, MedianVal.null)
  { status := "success", tickers := data, as_of := env.now,
    peer_median := peer_median }

/-- Outcome of one `DDGS().text(...)` call in `research._search`. -/
inductive DDGOutcome
  | exn
  | ok (results : Option (List SearchResult))
deriving DecidableEq, Repr

/-- `research._search(query)`: an exception is caught and yields `[]`;
otherwise `results if results else []`. -/
def research_search : DDGOutcome → List SearchResult
  | .exn => []
  | .ok none => []
  | .ok (some rs) => rs

theorem dictInsertAll_lookup_of_notmem {β : Type} (ps : List (String × β))
    (t : String) :
    ∀ acc, (∀ p ∈ ps, p.1 ≠ t) →
      (dictInsertAll ps acc).lookup t = acc.lookup t := by
  induction ps with
  | nil => intro acc _; rfl
  | cons p ps ih =>
      intro acc h
      rw [dictInsertAll_cons,
        ih _ (fun q hq => h q (List.mem_cons_of_mem _ hq))]
      exact lookup_upsert_ne p.1 t p.2 acc
        (Ne.symm (h p (List.mem_cons_self ..)))

theorem dictInsertAll_lookup_mem {β : Type} (f : String → β) (ts : List String)
    (t : String) :
    ∀ acc, t ∈ ts →
      (dictInsertAll (ts.map fun x => (x, f x)) acc).lookup t = some (f t) := by
  induction ts with
  | nil => intro acc ht; simp at ht
  | cons t0 rest ih =>
      intro acc ht
      rw [List.map_cons, dictInsertAll_cons]
      by_cases hmem : t ∈ rest
      · exact ih _ hmem
      · rcases List.mem_cons.mp ht with rfl | h2
        · rw [dictInsertAll_lookup_of_notmem _ t _
            (by intro q hq; rcases List.mem_map.mp hq with ⟨x, hx, rfl⟩
                exact fun hc => hmem (hc ▸ hx))]
          exact lookup_upsert_self ..
        · exact absurd h2 hmem

theorem keys_upsert {β : Type} (k : String) (v : β) (l : List (String × β)) :
    (upsert k v l).map Prod.fst =
      if k ∈ l.map Prod.fst then l.map Prod.fst
      else l.map Prod.fst ++ [k] := by
  induction l with
  | nil => simp [upsert]
  | cons hd tl ih =>
      by_cases hh : hd.1 = k
      · simp [upsert, hh]
      · by_cases hk : k ∈ tl.map Prod.fst <;>
          simp [upsert, hh, ih, hk, Ne.symm hh]

theorem dedupFirst_congr (l : List String) :
    ∀ s1 s2, (∀ x, x ∈ s1 ↔ x ∈ s2) → dedupFirst s1 l = dedupFirst s2 l := by
  induction l with
  | nil => intro s1 s2 _; rfl
  | cons d tl ih =>
      intro s1 s2 h
      by_cases hd : d ∈ s1
      · rw [dedupFirst, if_pos hd, dedupFirst, if_pos ((h d).mp hd)]
        exact ih s1 s2 h
      · rw [dedupFirst, if_neg hd, dedupFirst, if_neg (fun c => hd ((h d).mpr c))]
        rw [ih (d :: s1) (d :: s2) (fun x => by simp [h x])]

theorem keys_dictInsertAll {β : Type} (f : String → β) (ts : List String) :
    ∀ acc : List (String × β),
      (dictInsertAll (ts.map fun x => (x, f x)) acc).map Prod.fst =
        acc.map Prod.fst ++ dedupFirst (acc.map Prod.fst) ts := by
  induction ts with
  | nil => intro acc; simp [dictInsertAll, dedupFirst]
  | cons t rest ih =>
      intro acc
      rw [List.map_cons, dictInsertAll_cons, ih (upsert t (f t) acc), keys_upsert]
      by_cases hk : t ∈ acc.map Prod.fst
      · rw [if_pos hk, dedupFirst, if_pos hk]
      · rw [if_neg hk, dedupFirst, if_neg hk,
          dedupFirst_congr rest (acc.map Prod.fst ++ [t]) (t :: acc.map Prod.fst)
            (fun x => by simp [or_comm])]
        simp

/-! ## Drafting leaf models (`drafting.py`)

The Claude call is external: its outcome is `Except String String`
(returned text or exception message).  Prompt construction
(`load_prompt`, `format_search_results`, `format_peer_results`) only feeds
that external call and carries no verified property, so it is not modelled.
`edit_forecast_table` returns the parsed list or `None`; the JSON parsing of
the model output is likewise folded into the environment outcome. -/

/-- Outcome of one `client.messages.create` call. -/
abbrev ClaudeOutcome := Except String String

/-- A drafting result dict: `{"section", "content", "status"}`. -/
structure DraftResult where
  sectionName : String
  content : String
  status : String
deriving DecidableEq, Repr

/-- `generate_section(section_name, template_name, context, user_instruction)`. -/
def generate_section (sectionName : String) (outcome : ClaudeOutcome) : DraftResult :=
  match outcome with
  | .ok text => ⟨sectionName, text, "success"⟩
  | .error e =>
      ⟨sectionName, "[Section could not be generated: " ++ e ++ "]", "error"⟩

/-- `edit_section(section_name, current_content, instruction)`: on failure the
original content is returned with an error status. -/
def edit_section (sectionName currentContent : String) (outcome : ClaudeOutcome) :
    DraftResult :=
  match outcome with
  | .ok text => ⟨sectionName, text, "success"⟩
  | .error _ => ⟨sectionName, currentContent, "error"⟩

/-- One row of the forecast table (`{"label", "indent", "analyst",
"consensus", "delta"}`; the optional bold/highlight flags added by table
edits are consumed nowhere in the orchestration logic). -/
structure ForecastRow where
  label : String
  indent : Nat
  analyst : Option Rat
  consensus : Option Rat
  delta : String
deriving DecidableEq, Repr

/-- Success payload of `forecast.read_forecast_data` (the leaf reads Excel
via pandas, so its outcome is an environment input). -/
structure ForecastData where
  analyst_name : String
  firm : String
  date_updated : String
  is_stale : Bool
  table_rows : List ForecastRow
  rating : String
  price_target : Option Rat
deriving DecidableEq, Repr

/-- Parsed outcome of `run_quality_check` as read by the orchestrator. -/
structure QCResult where
  overall_status : String
  summary : String
deriving DecidableEq, Repr

/-! ## Report data model (`memo` dict, section records, events) -/

/-- `_confidence(level, reason)`. -/
structure Confidence where
  level : String
  reason : String
deriving DecidableEq, Repr

/-- `_confidence` constructor. -/
def confidence (level reason : String) : Confidence := ⟨level, reason⟩

/-- A narrative section record as stored in `memo["sections"]`. -/
structure NarrativeRecord where
  sectionName : String
  content : String
  status : String
  sources : List Source
  confidence : Confidence
deriving DecidableEq, Repr

/-- The stored forecast section record (leaf payload + sources + confidence). -/
structure ForecastRecord where
  data : ForecastData
  sources : List Source
  confidence : Confidence
deriving DecidableEq, Repr

/-- The stored valuation section record; `ticker_order` is set only by
regeneration. -/
structure ValuationRecord where
  data : ValResult
  sources : List Source
  confidence : Confidence
  ticker_order : Option (List String)
deriving DecidableEq, Repr

/-- A `SectionRecord`: the polymorphic value stored under a section key
(`errorRec` is the error-marker dict stored when a structured leaf fails). -/
inductive SectionRecord
  | narrative (n : NarrativeRecord)
  | forecastRec (f : ForecastRecord)
  | valuationRec (v : ValuationRecord)
  | errorRec (error : String) (sources : List Source) (confidence : Confidence)
deriving DecidableEq, Repr

/-- The per-session report (`memo` dict). -/
structure Memo where
  analyst : String
  firm : String
  company : String
  date : String
  sections : List (String × SectionRecord)
  quality_check : Option QCResult
deriving DecidableEq, Repr

/-- The process-wide `memo_store`. -/
abbrev MemoStore := List (String × Memo)

/-- A child node of the step hierarchy. -/
structure StepChild where
  id : String
  label : String
deriving DecidableEq, Repr

/-- A parent node of the step hierarchy. -/
structure StepGroup where
  id : String
  label : String
  children : List StepChild
deriving DecidableEq, Repr

/-- SSE events.  Identifier-bearing payload fields are modelled; the
free-text `findings` dicts (summaries/previews shown in the progress UI)
are elided. -/
inductive Event
  | stepsEv (steps : List StepGroup)
  | stepUpdate (step status : String)
  | sectionEv (sectionName content ty : String) (sources : List Source)
      (confidence : Confidence)
  | forecastEv (f : ForecastRecord)
  | valuationEv (v : ValuationRecord)
  | qualityCheckEv (qc : QCResult)
  | completeEv (memo_id : String)
  | serverError (message : String)
  | regenStart (sectionName : String)
  | regenStep (sectionName step : String)
  | regenError (sectionName message : String)
  | regenSection (sectionName content : String) (sources : List Source)
      (confidence : Confidence)
  | regenForecast (f : ForecastRecord)
  | regenValuation (v : ValuationRecord)
  | regenComplete (sectionName : String)
deriving DecidableEq, Repr

/-- `_build_steps(selected)`. -/
def build_steps (selected : List String) : List StepGroup :=
  (if "bio" ∈ selected then
    [StepGroup.mk "bio" "Analyst Background"
      [⟨"bio_search", "Searching for analyst background"⟩,
       ⟨"bio_draft", "Drafting bio section with Claude"⟩]]
   else []) ++
  (if "forecast" ∈ selected then
    [StepGroup.mk "forecast" "Analyst Forecast"
      [⟨"forecast_read", "Reading analyst forecast from Excel"⟩,
       ⟨"forecast_deltas", "Calculating consensus deltas"⟩]]
   else []) ++
  (if "earnings" ∈ selected then
    [StepGroup.mk "earnings" "Post-Earnings Analysis"
      [⟨"transcript_fetch", "Retrieving earnings transcript"⟩,
       ⟨"transcript_extract", "Extracting analyst questions"⟩,
       ⟨"earnings_draft", "Drafting post-earnings feedback"⟩]]
   else []) ++
  (if "peer" ∈ selected then
    [StepGroup.mk "peer" "Peer Research"
      [⟨"peer_search", "Searching for recent peer commentary"⟩,
       ⟨"peer_draft", "Drafting peer research summary"⟩]]
   else []) ++
  (if "valuation" ∈ selected then
    [StepGroup.mk "valuation" "Valuation Ratios"
      [⟨"market_data", "Pulling live valuation data"⟩]]
   else []) ++
  [StepGroup.mk "qc" "Quality Check"
    [⟨"quality_check", "Running quality check"⟩]]

/-! ## Orchestrator content heuristics -/

/-- The first line of the bio content mentioning "prior experience"
(lowercased containment), reduced to the text after `":**"` (stripped) when
that marker is present, else the whole line. -/
def bioPriorExpText (content : String) : List Char :=
  match (splitOnPred (fun c => c = '\n') content.data).find?
      (fun line => containsSub (pyLower line) "prior experience".data) with
  | none => []
  | some line =>
      match firstIdxOfSub line ":**".data with
      | some colonPos => pyStrip (line.drop (colonPos + 3))
      | none => line

/-- Firm count: split the prior-experience text on `[;,]`, count segments
whose stripped length exceeds 2. -/
def bioFirmCount (content : String) : Nat :=
  let pe := bioPriorExpText content
  if pe = [] then 0
  else ((splitOnPred (fun c => c = ';' ∨ c = ',') pe).filter
    (fun s => 2 < (pyStrip s).length)).length

/-- `len(re.findall(r'^>\s*"', content, re.MULTILINE))`: count line starts
carrying `>` then whitespace then a double quote (matches cannot overlap, so
a line-start scan with a whitespace skip is exact). -/
def questionCountAux : Nat → Bool → List Char → Nat
  | 0, _, _ => 0
  | _, _, [] => 0
  | fuel + 1, atStart, c :: tl =>
      if atStart ∧ c = '>' then
        match tl.dropWhile isPySpace with
        | '"' :: rest => 1 + questionCountAux fuel false rest
        | _ => questionCountAux fuel (c = '\n') tl
      else questionCountAux fuel (c = '\n') tl

/-- Blockquote question count in the drafted earnings content. -/
def questionCount (s : List Char) : Nat := questionCountAux s.length true s

/-- `f"{x:.2f}"` (two decimals, ties to even) on the rational model. -/
def fmtRat2 (q : Rat) : String :=
  let c := halfEvenInt (q * 100)
  let n := c.natAbs
  (if c < 0 then "-" else "") ++ toString (n / 100) ++ "." ++
    (if n % 100 < 10 then "0" else "") ++ toString (n % 100)

/-- `d.get("Stock Price")` on a metric row. -/
def rowStockPrice (row : List (String × Option Rat)) : Option Rat :=
  (row.lookup "Stock Price").join

/-! ## `_run_orchestrator_inner`

Each awaited leaf outcome is an environment field (`_run_step` converts a
leaf exception into an error-shaped dict; the views below reproduce the
`.get(..., default)` reads on both shapes).  `sections_summary` and
`metadata` only build the prompt for the external quality-check call, whose
parsed outcome is `qc`, so their string assembly is not modelled.  The
stdlib date-regex/`strptime` extraction over the peer content enters as
`peerDateStr`/`peerDateParsed`, and `datetime.now()`/`uuid` as
`nowYear`/`nowMonth`/`dateStr`/`freshId`. -/

/-- Success payload of `research.search_analyst_bio`. -/
structure BioSearchData where
  analyst_name : String
  firm : String
  search_results : List SearchResult
deriving DecidableEq, Repr

/-- Success payload of `research.search_peer_research`. -/
structure PeerSearchData where
  analyst_name : String
  peer_results : List (String × List SearchResult)
  sector_results : List SearchResult
deriving DecidableEq, Repr

/-- All leaf outcomes and external values consumed by one orchestrator run. -/
structure OrchEnv where
  excel : Except String (List (String × String))
  bioSearch : Except String BioSearchData
  bioDraft : ClaudeOutcome
  forecastRead : Except String ForecastData
  transcript : Except String TranscriptResult
  earningsDraft : ClaudeOutcome
  peerSearch : Except String PeerSearchData
  peerDraft : ClaudeOutcome
  valuation : Except String ValResult
  qc : QCResult
  netloc : String → Option String
  peerDateStr : String
  peerDateParsed : Option (Int × Int)
  nowYear : Int
  nowMonth : Int
  dateStr : String
  freshId : String

/-- `firm = analyst_row.iloc[0]["Firm"] if not analyst_row.empty else ""`
(case-insensitive analyst match over the Forecasts sheet). -/
def firmOf (rows : List (String × String)) (analyst : String) : String :=
  match rows.find? (fun r => pyLower r.1.data = pyLower analyst.data) with
  | some r => r.2
  | none => ""

/-- Group 1: Analyst Background. -/
def bioGroup (env : OrchEnv) (analyst : String) : List Event × SectionRecord :=
  let search_results := match env.bioSearch with
    | .ok d => d.search_results
    | .error _ => []
  let bio_sources := top_sources env.netloc search_results 5
  let bio_status := match env.bioSearch with
    | .ok _ => "complete"
    | .error _ => "error"
  let bio_section := generate_section "bio" env.bioDraft
  let career_incomplete := bioFirmCount bio_section.content < 3
  let n_domains := bio_sources.length
  let bio_confidence :=
    if 3 ≤ n_domains ∧ ¬ career_incomplete then
      confidence "high" (toString n_domains ++ " sources found")
    else if 3 ≤ n_domains ∧ career_incomplete then
      confidence "medium"
        "Career history may be incomplete — fewer than 3 prior firms identified"
    else if 1 ≤ n_domains then
      confidence "medium" ("Only " ++ toString n_domains ++ " source" ++
        (if 1 < n_domains then "s" else "") ++ " found")
    else confidence "low" "No web sources found"
  ([Event.stepUpdate "bio_search" "running",
    Event.stepUpdate "bio_search" bio_status,
    Event.stepUpdate "bio_draft" "running",
    Event.stepUpdate "bio_draft" "complete",
    Event.sectionEv "bio" bio_section.content "narrative" bio_sources bio_confidence],
   .narrative ⟨"bio", bio_section.content, bio_section.status, bio_sources,
     bio_confidence⟩)

/-- `missing_count` over the forecast table rows. -/
def forecastMissingCount (rows : List ForecastRow) : Nat :=
  (rows.filter (fun r => r.analyst = none ∨ r.consensus = none)).length

/-- Group 2: Analyst Forecast. -/
def forecastGroup (env : OrchEnv) (analyst firm : String) :
    List Event × SectionRecord :=
  match env.forecastRead with
  | .ok d =>
      let missing_count := forecastMissingCount d.table_rows
      let forecast_sources : List Source :=
        [⟨"", "analyst_key_metrics.xlsx",
          "Row: " ++ analyst ++ ", " ++ firm ++ ", updated " ++ d.date_updated⟩]
      let fc_confidence :=
        if d.is_stale ∧ 0 < missing_count then
          confidence "low" ("Data is stale and " ++ toString missing_count ++
            " values missing")
        else if d.is_stale then
          confidence "medium" ("Data is older than 30 days (updated " ++
            d.date_updated ++ ")")
        else if 2 < missing_count then
          confidence "medium" (toString missing_count ++ " forecast values missing")
        else
          confidence "high" ("Data current, " ++ toString missing_count ++
            " missing values")
      let record : ForecastRecord := ⟨d, forecast_sources, fc_confidence⟩
      ([Event.stepUpdate "forecast_read" "running",
        Event.stepUpdate "forecast_read" "complete",
        Event.stepUpdate "forecast_deltas" "running",
        Event.stepUpdate "forecast_deltas" "complete",
        Event.forecastEv record],
       .forecastRec record)
  | .error e =>
      ([Event.stepUpdate "forecast_read" "running",
        Event.stepUpdate "forecast_read" "error",
        Event.stepUpdate "forecast_deltas" "error"],
       .errorRec e [] (confidence "low" "Forecast data unavailable"))

/-- Group 3: Post-Earnings Analysis.  The third component is true iff the
run crashes at `analyst_name.split()[-1]` (tier-5 preview with a whitespace
analyst name); the events emitted before the crash are returned with it. -/
def earningsGroup (env : OrchEnv) (analyst : String) :
    List Event × Option SectionRecord × Bool :=
  let ok_status := match env.transcript with
    | .ok r => r.status
    | .error _ => "error"
  let r_text := match env.transcript with
    | .ok r => r.transcript_text
    | .error _ => ""
  let source := match env.transcript with
    | .ok r => r.source
    | .error _ => "N/A"
  let source_url := match env.transcript with
    | .ok r => r.source_url
    | .error _ => ""
  let tier := match env.transcript with
    | .ok r => r.tier
    | .error _ => 0
  let success := ok_status = "success" ∧ r_text ≠ ""
  if success ∧ tier = 5 ∧ pySplitWs analyst.data = [] then
    ([Event.stepUpdate "transcript_fetch" "running"], none, true)
  else
    let transcript_sources : List Source :=
      if success then
        [⟨source_url, source,
          "Transcript from " ++ source ++ " (" ++
            pyCommaFmt r_text.length ++ " characters)"⟩]
      else []
    let fetchEv := Event.stepUpdate "transcript_fetch"
      (if success then "complete" else "error")
    let transcript_text :=
      if r_text = "" then
        "[Earnings call transcript not available from public sources]"
      else r_text
    let draft := generate_section "earnings" env.earningsDraft
    let limited_participation := questionCount draft.content.data < 2
    let is_snippets := containsSub transcript_text.data "[Partial transcript".data
    let is_local_file := tier = 5
    let earnings_confidence :=
      if ¬ success then confidence "low" "Transcript not available"
      else if limited_participation then
        confidence "medium" "Limited analyst participation found in transcript"
      else if is_local_file then
        confidence "medium" "Using bundled demo transcript (live sources unavailable)"
      else if is_snippets then
        confidence "medium" "Only web search snippets available"
      else confidence "high" ("Full transcript retrieved from " ++ source)
    ([Event.stepUpdate "transcript_fetch" "running", fetchEv,
      Event.stepUpdate "transcript_extract" "running",
      Event.stepUpdate "transcript_extract" "complete",
      Event.stepUpdate "earnings_draft" "running",
      Event.stepUpdate "earnings_draft" "complete",
      Event.sectionEv "earnings" draft.content "narrative" transcript_sources
        earnings_confidence],
     some (.narrative ⟨"earnings", draft.content, draft.status,
       transcript_sources, earnings_confidence⟩), false)

/-- Group 4: Peer Research. -/
def peerGroup (env : OrchEnv) : List Event × SectionRecord :=
  let peer_results := match env.peerSearch with
    | .ok d => d.peer_results
    | .error _ => []
  let sector_results := match env.peerSearch with
    | .ok d => d.sector_results
    | .error _ => []
  let searchStatus := match env.peerSearch with
    | .ok _ => "complete"
    | .error _ => "error"
  let all_results := (peer_results.map Prod.snd).flatten ++ sector_results
  let peer_sources := top_sources env.netloc all_results 5
  let n_peers := (peer_results.filter (fun p => p.2 ≠ [])).length
  let draft := generate_section "peer" env.peerDraft
  let peer_stale_note : Option String :=
    match env.peerDateParsed with
    | some ym =>
        let months_old := (env.nowYear - ym.1) * 12 + (env.nowMonth - ym.2)
        if 6 < months_old then
          some ("Most recent commentary found is from " ++ env.peerDateStr ++
            " — may not reflect current views")
        else if 3 ≤ months_old then
          some ("Commentary is " ++ toString months_old ++ " months old")
        else none
    | none =>
        if draft.content ≠ "" ∧ 1 ≤ n_peers then
          some "Publication date could not be verified"
        else none
  let n_domains := peer_sources.length
  let peer_confidence :=
    match peer_stale_note with
    | some note => confidence "medium" note
    | none =>
        if 3 ≤ n_peers ∧ 2 ≤ n_domains then
          confidence "high" ("Recent commentary found from " ++ toString n_peers ++
            " peers")
        else if 1 ≤ n_peers then
          confidence "medium" ("Limited results — " ++ toString n_peers ++
            " peer" ++ (if 1 < n_peers then "s" else "") ++ " with data")
        else confidence "low" "No peer commentary found"
  ([Event.stepUpdate "peer_search" "running",
    Event.stepUpdate "peer_search" searchStatus,
    Event.stepUpdate "peer_draft" "running",
    Event.stepUpdate "peer_draft" "complete",
    Event.sectionEv "peer" draft.content "narrative" peer_sources peer_confidence],
   .narrative ⟨"peer", draft.content, draft.status, peer_sources,
     peer_confidence⟩)

/-- Group 5: Valuation Ratios. -/
def valuationGroup (env : OrchEnv) : List Event × SectionRecord :=
  let errBranch : List Event × SectionRecord :=
    ([Event.stepUpdate "market_data" "running",
      Event.stepUpdate "market_data" "error"],
     .errorRec (match env.valuation with | .ok _ => "Failed" | .error e => e) []
       (confidence "low" "Valuation data unavailable"))
  match env.valuation with
  | .ok result =>
      if result.status = "success" then
        let tickers_data := result.tickers
        let n_tickers := tickers_data.length
        let n_failures :=
          (tickers_data.filter (fun d => rowStockPrice d.2 = none)).length
        let ms_price := rowStockPrice ((tickers_data.lookup "MS").getD [])
        let ms_price_str := match ms_price with
          | some q => if q ≠ 0 then "$" ++ fmtRat2 q else "N/A"
          | none => "N/A"
        let valuation_sources : List Source :=
          [⟨"", "Yahoo Finance API",
            "Real-time data — MS: " ++ ms_price_str ++ " (as of " ++
              result.as_of ++ ")"⟩]
        let val_confidence :=
          if n_failures = 0 then
            confidence "high" ("All " ++ toString n_tickers ++ " tickers retrieved")
          else if n_failures ≤ 2 then
            confidence "medium" (toString n_failures ++ " of " ++
              toString n_tickers ++ " tickers failed")
          else
            confidence "low" ("Major data gaps — " ++ toString n_failures ++
              " tickers failed")
        let record : ValuationRecord := ⟨result, valuation_sources, val_confidence, none⟩
        ([Event.stepUpdate "market_data" "running",
          Event.stepUpdate "market_data" "complete",
          Event.valuationEv record],
         .valuationRec record)
      else errBranch
  | .error _ => errBranch

/-- `_run_orchestrator_inner`: the full sequential run.  Returns the emitted
events, the updated store, and `some message` when the inner generator
raised (before the Excel read's first yield, or at the tier-5 preview). -/
def run_orchestrator_inner (env : OrchEnv) (analyst company : String)
    (selected : List String) (store : MemoStore) :
    List Event × MemoStore × Option String :=
  match env.excel with
  | .error e => ([], store, some e)
  | .ok rows =>
      let firm := firmOf rows analyst
      let stepsEv := Event.stepsEv (build_steps selected)
      let bioR := if "bio" ∈ selected then
          (let g := bioGroup env analyst; (g.1, [("bio", g.2)]))
        else ([], [])
      let fcR := if "forecast" ∈ selected then
          (let g := forecastGroup env analyst firm; (g.1, [("forecast", g.2)]))
        else ([], [])
      let earnR := if "earnings" ∈ selected then
          (let g := earningsGroup env analyst;
           (g.1, (match g.2.1 with | some r => [("earnings", r)] | none => []),
            g.2.2))
        else ([], [], false)
      if earnR.2.2 then
        (stepsEv :: (bioR.1 ++ fcR.1 ++ earnR.1), store,
          some "list index out of range")
      else
        let peerR := if "peer" ∈ selected then
            (let g := peerGroup env; (g.1, [("peer", g.2)]))
          else ([], [])
        let valR := if "valuation" ∈ selected then
            (let g := valuationGroup env; (g.1, [("valuation", g.2)]))
          else ([], [])
        let sections := bioR.2 ++ fcR.2 ++ earnR.2.1 ++ peerR.2 ++ valR.2
        let memo : Memo :=
          ⟨analyst, firm, company, env.dateStr, sections, some env.qc⟩
        (stepsEv :: (bioR.1 ++ fcR.1 ++ earnR.1 ++ peerR.1 ++ valR.1 ++
          [Event.stepUpdate "quality_check" "running",
           Event.qualityCheckEv env.qc,
           Event.stepUpdate "quality_check" "complete",
           Event.completeEv env.freshId]),
         upsert env.freshId memo store, none)

/-- `run_orchestrator`: the top-level guard converting an uncaught fault
into one terminal `server_error` event after the events already emitted. -/
def run_orchestrator (env : OrchEnv) (analyst company : String)
    (selected : List String) (store : MemoStore) : List Event × MemoStore :=
  match run_orchestrator_inner env analyst company selected store with
  | (evs, store2, none) => (evs, store2)
  | (evs, store2, some msg) =>
      (evs ++ [Event.serverError ("Orchestrator error: " ++ msg)], store2)

/-! ## `_run_regeneration_inner`

The regeneration body never raises in the model (its only leaf calls are
caught or environment-valued), so `run_regeneration` coincides with the
inner generator.  Alongside events and the updated store we return the list
of `get_valuation_data` invocations (their ticker-list arguments), which the
control flow determines uniquely. -/

/-- `config.ALL_TICKERS = [DEFAULT_TICKER] + PEER_TICKERS`. -/
def ALL_TICKERS : List String := ["MS", "GS", "JPM", "BAC", "C", "WFC", "SCHW"]

/-- Leaf outcomes consumed by one regeneration request. -/
structure RegenEnv where
  editSec : ClaudeOutcome
  editForecast : Option (List ForecastRow)
  bioSearch : Except String BioSearchData
  forecastRead : Except String ForecastData
  transcript : Except String TranscriptResult
  peerSearch : Except String PeerSearchData
  valuation : Except String ValResult
  draft : ClaudeOutcome
  netloc : String → Option String

/-- `existing_section.get("content", "")`. -/
def recContent : Option SectionRecord → String
  | some (.narrative n) => n.content
  | _ => ""

/-- `existing_section.get("sources", [])`. -/
def recSources : Option SectionRecord → List Source
  | some (.narrative n) => n.sources
  | some (.forecastRec f) => f.sources
  | some (.valuationRec v) => v.sources
  | some (.errorRec _ s _) => s
  | none => []

/-- `existing_section.get("confidence", default)`. -/
def recConfidence (default : Confidence) : Option SectionRecord → Confidence
  | some (.narrative n) => n.confidence
  | some (.forecastRec f) => f.confidence
  | some (.valuationRec v) => v.confidence
  | some (.errorRec _ _ c) => c
  | none => default

/-- `existing_section.get("tickers", {})` (as the stored per-ticker map). -/
def recTickers : Option SectionRecord → List (String × List (String × Option Rat))
  | some (.valuationRec v) => v.data.tickers
  | _ => []

/-- `existing_tickers`: keys of the stored ticker map when non-empty,
else `list(ALL_TICKERS)`. -/
def existingTickersOf (existingSection : Option SectionRecord) : List String :=
  let tk := recTickers existingSection
  if tk ≠ [] then tk.map Prod.fst else ALL_TICKERS

/-- Shared tail of both valuation pull paths (identical in the draft-only
escalation and in re-search): sources, confidence and `ticker_order` for a
fresh `get_valuation_data` success. -/
def valuationPullRecord (result : ValResult) (new_tickers : List String) :
    ValuationRecord :=
  let tickers_data := result.tickers
  let target := new_tickers.headI
  let target_price := rowStockPrice ((tickers_data.lookup target).getD [])
  let target_price_str := match target_price with
    | some q => if q ≠ 0 then "$" ++ fmtRat2 q else "N/A"
    | none => "N/A"
  let valuation_sources : List Source :=
    [⟨"", "Yahoo Finance API",
      "Real-time data — " ++ target ++ ": " ++ target_price_str ++
        " (as of " ++ result.as_of ++ ")"⟩]
  let n_failures := (tickers_data.filter (fun d => rowStockPrice d.2 = none)).length
  let val_confidence :=
    if n_failures = 0 then
      confidence "high" ("All " ++ toString tickers_data.length ++
        " tickers retrieved")
    else confidence "medium" (toString n_failures ++ " tickers failed")
  ⟨result, valuation_sources, val_confidence, some new_tickers⟩

/-- Re-search bio: the freshly built narrative record. -/
def reSearchBioRecord (env : RegenEnv) : NarrativeRecord :=
  let search_results := match env.bioSearch with
    | .ok d => d.search_results
    | .error _ => []
  let bio_section := generate_section "bio" env.draft
  let bio_sources := top_sources env.netloc search_results 5
  let n_domains := bio_sources.length
  let bio_confidence :=
    if 3 ≤ n_domains then confidence "high" (toString n_domains ++ " sources found")
    else if 1 ≤ n_domains then
      confidence "medium" ("Only " ++ toString n_domains ++ " source" ++
        (if 1 < n_domains then "s" else "") ++ " found")
    else confidence "low" "No web sources found"
  ⟨"bio", bio_section.content, bio_section.status, bio_sources, bio_confidence⟩

/-- Re-search forecast (success path): fresh record from the re-read data. -/
def reSearchForecastRecord (env : RegenEnv) (analyst firm instruction : String)
    (d : ForecastData) : ForecastRecord :=
  let d2 := if instruction ≠ "" then
      (match env.editForecast with
       | some rows2 => {d with table_rows := rows2}
       | none => d)
    else d
  let forecast_sources : List Source :=
    [⟨"", "analyst_key_metrics.xlsx",
      "Row: " ++ analyst ++ ", " ++ firm ++ ", updated " ++ d2.date_updated⟩]
  let fc_confidence :=
    if d2.is_stale then
      confidence "medium" ("Data is older than 30 days (updated " ++
        d2.date_updated ++ ")")
    else confidence "high" "Data current"
  ⟨d2, forecast_sources, fc_confidence⟩

/-- Re-search earnings: the freshly built narrative record. -/
def reSearchEarningsRecord (env : RegenEnv) : NarrativeRecord :=
  let r_text := match env.transcript with
    | .ok r => r.transcript_text
    | .error _ => ""
  let source := match env.transcript with
    | .ok r => r.source
    | .error _ => "N/A"
  let source_url := match env.transcript with
    | .ok r => r.source_url
    | .error _ => ""
  let transcript_text :=
    if r_text = "" then
      "[Earnings call transcript not available from public sources]"
    else r_text
  let draft := generate_section "earnings" env.draft
  let transcript_sources : List Source :=
    if transcript_text ≠ "" ∧
        ¬ containsSub transcript_text.data "[not available".data then
      [⟨source_url, source, "Transcript from " ++ source⟩]
    else []
  ⟨"earnings", draft.content, draft.status, transcript_sources,
   confidence "medium" "Regenerated section"⟩

/-- Re-search peer: the freshly built narrative record. -/
def reSearchPeerRecord (env : RegenEnv) : NarrativeRecord :=
  let peer_results := match env.peerSearch with
    | .ok d => d.peer_results
    | .error _ => []
  let sector_results := match env.peerSearch with
    | .ok d => d.sector_results
    | .error _ => []
  let all_results := (peer_results.map Prod.snd).flatten ++ sector_results
  let draft := generate_section "peer" env.draft
  let peer_sources := top_sources env.netloc all_results 5
  let n_domains := peer_sources.length
  let peer_confidence :=
    if 2 ≤ n_domains then
      confidence "high" ("Commentary from " ++ toString n_domains ++ " sources")
    else if 1 ≤ n_domains then confidence "medium" "Limited sources"
    else confidence "low" "No peer commentary found"
  ⟨"peer", draft.content, draft.status, peer_sources, peer_confidence⟩

/-- The record a successful re-search stores for a section (specification
selector used to state full replacement; the runner below computes the same
records through the individual builders). -/
def reSearchRecord (env : RegenEnv) (sectionName analyst firm instruction : String)
    (oldTickers : List String) : Option SectionRecord :=
  if sectionName = "bio" then some (.narrative (reSearchBioRecord env))
  else if sectionName = "forecast" then
    match env.forecastRead with
    | .ok d =>
        some (.forecastRec (reSearchForecastRecord env analyst firm instruction d))
    | .error _ => none
  else if sectionName = "earnings" then
    some (.narrative (reSearchEarningsRecord env))
  else if sectionName = "peer" then some (.narrative (reSearchPeerRecord env))
  else if sectionName = "valuation" then
    match env.valuation with
    | .ok result =>
        if result.status = "success" then
          some (.valuationRec (valuationPullRecord result
            (parse_ticker_changes instruction oldTickers)))
        else none
    | .error _ => none
  else none

/-- `_run_regeneration_inner` (= `run_regeneration`: the outer guard never
fires since the body is total here). -/
def run_regeneration (env : RegenEnv) (sectionName analyst instruction : String)
    (reSearch : Bool) (store : MemoStore) (memoId currentContent : String) :
    List Event × MemoStore × List (List String) :=
  match store.lookup memoId with
  | none => ([Event.regenError sectionName "Memo not found"], store, [])
  | some memo =>
      let firm := memo.firm
      let existingSection := memo.sections.lookup sectionName
      let start := Event.regenStart sectionName
      if ¬ reSearch then
        if sectionName = "bio" ∨ sectionName = "earnings" ∨ sectionName = "peer" then
          let content_to_edit :=
            if currentContent ≠ "" then currentContent
            else recContent existingSection
          if content_to_edit = "" then
            ([start, Event.regenError sectionName "No existing content to edit"],
             store, [])
          else
            let edited := edit_section sectionName content_to_edit env.editSec
            let sources := recSources existingSection
            let conf := recConfidence (confidence "medium" "Edited section")
              existingSection
            let record := SectionRecord.narrative
              ⟨sectionName, edited.content, edited.status, sources, conf⟩
            ([start, Event.regenStep sectionName "Applying changes with Claude",
              Event.regenSection sectionName edited.content sources conf,
              Event.regenComplete sectionName],
             upsert memoId
               {memo with sections := upsert sectionName record memo.sections}
               store, [])
        else if sectionName = "forecast" then
          match existingSection with
          | some (.forecastRec f) =>
              if f.data.table_rows = [] then
                ([start,
                  Event.regenError sectionName "No existing forecast data to edit"],
                 store, [])
              else
                let stepEvs := if instruction ≠ "" then
                    [Event.regenStep sectionName "Applying changes to forecast table"]
                  else []
                let d2 := if instruction ≠ "" then
                    (match env.editForecast with
                     | some rows2 => {f.data with table_rows := rows2}
                     | none => f.data)
                  else f.data
                let sources := recSources existingSection
                let conf := recConfidence (confidence "medium" "Edited forecast")
                  existingSection
                let record : ForecastRecord := ⟨d2, sources, conf⟩
                (start :: stepEvs ++
                  [Event.regenForecast record, Event.regenComplete sectionName],
                 upsert memoId
                   {memo with sections := (upsert "forecast" (.forecastRec record) memo.sections)}
                   store, [])
          | _ =>
              ([start,
                Event.regenError sectionName "No existing forecast data to edit"],
               store, [])
        else if sectionName = "valuation" then
          let existing_tickers := existingTickersOf existingSection
          let new_tickers := parse_ticker_changes instruction existing_tickers
          if new_tickers ≠ existing_tickers then
            let stepEv := Event.regenStep sectionName
              ("Pulling data for updated tickers: " ++
                String.intercalate ", " new_tickers)
            match env.valuation with
            | .ok result =>
                if result.status = "success" then
                  let record := valuationPullRecord result new_tickers
                  ([start, stepEv, Event.regenValuation record,
                    Event.regenComplete sectionName],
                   upsert memoId
                     {memo with sections := (upsert "valuation" (.valuationRec record) memo.sections)}
                     store, [new_tickers])
                else
                  ([start, stepEv,
                    Event.regenError sectionName "Failed to pull valuation data"],
                   store, [new_tickers])
            | .error _ =>
                ([start, stepEv,
                  Event.regenError sectionName "Failed to pull valuation data"],
                 store, [new_tickers])
          else
            match existingSection with
            | some (.valuationRec v) =>
                if v.data.tickers ≠ [] then
                  ([start, Event.regenValuation v,
                    Event.regenComplete sectionName], store, [])
                else
                  ([start, Event.regenError sectionName "No existing valuation data"],
                   store, [])
            | _ =>
                ([start, Event.regenError sectionName "No existing valuation data"],
                 store, [])
        else
          ([start, Event.regenError sectionName
            ("Unknown section: " ++ sectionName)], store, [])
      else
        if sectionName = "bio" then
          let nr := reSearchBioRecord env
          ([start, Event.regenStep sectionName "Searching for analyst background",
            Event.regenStep sectionName "Drafting bio section with Claude",
            Event.regenSection "bio" nr.content nr.sources nr.confidence,
            Event.regenComplete sectionName],
           upsert memoId
             {memo with sections := upsert "bio" (.narrative nr) memo.sections}
             store, [])
        else if sectionName = "forecast" then
          match env.forecastRead with
          | .ok d =>
              let stepEvs := [Event.regenStep sectionName "Re-reading forecast from Excel"] ++
                (if instruction ≠ "" then
                  [Event.regenStep sectionName "Applying changes to forecast table"]
                 else [])
              let record := reSearchForecastRecord env analyst firm instruction d
              (start :: stepEvs ++
                [Event.regenForecast record, Event.regenComplete sectionName],
               upsert memoId
                 {memo with sections := (upsert "forecast" (.forecastRec record) memo.sections)}
                 store, [])
          | .error _ =>
              ([start, Event.regenStep sectionName "Re-reading forecast from Excel",
                Event.regenError sectionName "Failed to read forecast data"],
               store, [])
        else if sectionName = "earnings" then
          let nr := reSearchEarningsRecord env
          ([start, Event.regenStep sectionName "Re-fetching earnings transcript",
            Event.regenStep sectionName "Drafting post-earnings feedback",
            Event.regenSection "earnings" nr.content nr.sources nr.confidence,
            Event.regenComplete sectionName],
           upsert memoId
             {memo with sections := upsert "earnings" (.narrative nr) memo.sections}
             store, [])
        else if sectionName = "peer" then
          let nr := reSearchPeerRecord env
          ([start, Event.regenStep sectionName "Searching for peer commentary",
            Event.regenStep sectionName "Drafting peer research summary",
            Event.regenSection "peer" nr.content nr.sources nr.confidence,
            Event.regenComplete sectionName],
           upsert memoId
             {memo with sections := upsert "peer" (.narrative nr) memo.sections}
             store, [])
        else if sectionName = "valuation" then
          let existing_tickers := existingTickersOf existingSection
          let new_tickers := parse_ticker_changes instruction existing_tickers
          let stepEv := Event.regenStep sectionName
            ("Pulling fresh valuation data for " ++
              String.intercalate ", " new_tickers)
          match env.valuation with
          | .ok result =>
              if result.status = "success" then
                let record := valuationPullRecord result new_tickers
                ([start, stepEv, Event.regenValuation record,
                  Event.regenComplete sectionName],
                 upsert memoId
                   {memo with sections := (upsert "valuation" (.valuationRec record) memo.sections)}
                   store, [new_tickers])
              else
                ([start, stepEv,
                  Event.regenError sectionName "Failed to pull valuation data"],
                 store, [new_tickers])
          | .error _ =>
              ([start, stepEv,
                Event.regenError sectionName "Failed to pull valuation data"],
               store, [new_tickers])
        else
          ([start, Event.regenError sectionName
            ("Unknown section: " ++ sectionName)], store, [])

/-! ## Concrete witness environments -/

/-- Every tier attempt fails. -/
def transcriptEnvAllFail : TranscriptEnv :=
  ⟨⟨none, ""⟩, ⟨none, ""⟩, ⟨none, ""⟩, ⟨none, ""⟩, ⟨none, ""⟩⟩

/-- Only tier 3 succeeds. -/
def transcriptEnvTier3 : TranscriptEnv :=
  ⟨⟨none, ""⟩, ⟨none, ""⟩, ⟨some "full transcript text", "https://fmp.example"⟩,
   ⟨none, ""⟩, ⟨none, ""⟩⟩

/-- An orchestrator environment whose transcript leaf returns the
exhausted-chain payload and whose other leaves succeed trivially. -/
def orchEnvC2 : OrchEnv :=
  { excel := .ok [("Mike Mayo", "Wells Fargo")],
    bioSearch := .ok ⟨"Mike Mayo", "Wells Fargo", []⟩,
    bioDraft := .ok "bio text",
    forecastRead := .error "Failed to read Excel file: missing",
    transcript := .ok transcriptUnavailable,
    earningsDraft := .ok "earnings text",
    peerSearch := .ok ⟨"Mike Mayo", [], []⟩,
    peerDraft := .ok "peer text",
    valuation := .ok ⟨"success", [], "2026-01-05 10:00 ET", []⟩,
    qc := ⟨"pass", "ok"⟩,
    netloc := fun _ => none,
    peerDateStr := "",
    peerDateParsed := none,
    nowYear := 2026, nowMonth := 1,
    dateStr := "January 05, 2026",
    freshId := "abc12345" }

/-- Terminal events of the main event channel. -/
def isTerminal : Event → Bool
  | .completeEv _ => true
  | .serverError _ => true
  | _ => false

/-- Market env where only GS resolves; every other ticker fetch raises. -/
def marketEnvW : MarketEnv :=
  ⟨fun t => if t = "GS" then some [("currentPrice", 500)] else none,
   "2026-01-05 10:00 ET"⟩

/-- One search hit with a non-empty URL. -/
def searchResultsW : List SearchResult :=
  [⟨"Title A", "body text", "https://a.example/x"⟩]

/-- A netloc function for the C10 witness. -/
def netlocW : String → Option String := fun _ => some "a.example"

/-- Regeneration environment whose drafting leaf raises. -/
def regenEnvFail : RegenEnv :=
  { editSec := .error "API connection error",
    editForecast := none,
    bioSearch := .ok ⟨"Mike Mayo", "Wells Fargo", []⟩,
    forecastRead := .error "Failed to read Excel file: missing",
    transcript := .ok transcriptUnavailable,
    peerSearch := .ok ⟨"Mike Mayo", [], []⟩,
    valuation := .ok ⟨"success", [], "2026-01-05 10:05 ET", []⟩,
    draft := .ok "fresh draft",
    netloc := fun _ => none }

/-- A stored memo whose bio section holds content "A". -/
def memoA : Memo :=
  ⟨"Mike Mayo", "Wells Fargo", "MS", "January 05, 2026",
   [("bio", .narrative ⟨"bio", "A", "success", [], ⟨"high", "3 sources found"⟩⟩)],
   some ⟨"pass", "ok"⟩⟩

/-- A store holding `memoA` under "m1". -/
def storeA : MemoStore := [("m1", memoA)]

/-- The draft-only bio regeneration of `storeA` with a failing leaf and a
client-supplied `current_content` of "B". -/
def c4Run : List Event × MemoStore × List (List String) :=
  run_regeneration regenEnvFail "bio" "Mike Mayo" "tighten wording" false
    storeA "m1" "B"

/-- A stored memo whose valuation section holds tickers MS, GS, JPM. -/
def memoV : Memo :=
  ⟨"Mike Mayo", "Wells Fargo", "MS", "January 05, 2026",
   [("valuation", .valuationRec
     ⟨⟨"success", [("MS", []), ("GS", []), ("JPM", [])], "2026-01-05 09:00 ET", []⟩,
      [], ⟨"high", "All 3 tickers retrieved"⟩, none⟩)],
   some ⟨"pass", "ok"⟩⟩

/-- A store holding `memoV` under "m1". -/
def storeV : MemoStore := [("m1", memoV)]

/-- Regeneration environment whose valuation pull succeeds. -/
def regenEnvV : RegenEnv :=
  { regenEnvFail with
    valuation := .ok
      ⟨"success", [("MS", []), ("JPM", []), ("GS", [])], "2026-01-05 10:09 ET", []⟩ }

/-- Draft-only valuation regeneration whose instruction permutes the stored
ticker set without changing it as a set. -/
def c8Run : List Event × MemoStore × List (List String) :=
  run_regeneration regenEnvV "valuation" "Mike Mayo"
    "Replace GS with UBS and add GS and remove UBS" false storeV "m1" ""

/-! ## Claim theorems -/

/-- C1: for the tiered fallback resolver `get_transcript` with a configured
CIK, if exactly attempt `k` of the ordered chain succeeds then the result
reports `tier = k` and the invocation trace is exactly `[1, …, k]`:
ascending order, attempts `1..k` only, nothing after the first success, and
no tier invoked more than once. -/
theorem get_transcript_first_success (cik : Option String) (env : TranscriptEnv)
    (k : Nat) (hcik : cik.isSome) (hk1 : 1 ≤ k) (hk5 : k ≤ 5)
    (honly : ∀ i, 1 ≤ i → i ≤ 5 →
      truthyText (tierAttempt env i).text = decide (i = k)) :
    (get_transcript cik env).1.tier = k ∧
    (get_transcript cik env).1.status = "success" ∧
    (get_transcript cik env).2 = List.range' 1 k ∧
    List.Chain' (· < ·) (get_transcript cik env).2 ∧
    (get_transcript cik env).2.Nodup ∧
    ∀ i ∈ (get_transcript cik env).2, i ≤ k := by
  obtain ⟨c, rfl⟩ := Option.isSome_iff_exists.mp hcik
  have h1 := honly 1 (by norm_num) (by norm_num)
  have h2 := honly 2 (by norm_num) (by norm_num)
  have h3 := honly 3 (by norm_num) (by norm_num)
  have h4 := honly 4 (by norm_num) (by norm_num)
  have h5 := honly 5 (by norm_num) (by norm_num)
  simp only [tierAttempt] at h1 h2 h3 h4 h5
  interval_cases k <;>
    simp_all [get_transcript, get_transcript_from3] <;> decide

/-- Witness for C1 at `k = 3` with the MS CIK configured. -/
theorem earningsGroup_of_unavailable (oenv : OrchEnv) (analyst : String)
    (h : oenv.transcript = .ok transcriptUnavailable) :
    earningsGroup oenv analyst =
      ([Event.stepUpdate "transcript_fetch" "running",
        Event.stepUpdate "transcript_fetch" "error",
        Event.stepUpdate "transcript_extract" "running",
        Event.stepUpdate "transcript_extract" "complete",
        Event.stepUpdate "earnings_draft" "running",
        Event.stepUpdate "earnings_draft" "complete",
        Event.sectionEv "earnings"
          (generate_section "earnings" oenv.earningsDraft).content "narrative" []
          (confidence "low" "Transcript not available")],
       some (.narrative ⟨"earnings",
         (generate_section "earnings" oenv.earningsDraft).content,
         (generate_section "earnings" oenv.earningsDraft).status, [],
         confidence "low" "Transcript not available"⟩), false) := by
  simp [earningsGroup, h, transcriptUnavailable]

/-- C2: exhausting every fallback tier makes `get_transcript` return (not
raise) `tier = 0`, status `"error"`, empty transcript text, and the explicit
unavailable payload; and an orchestrator run whose earnings section receives
this exhausted-chain result does not fault and still stores a narrative
earnings record with a `low` confidence rating. -/
theorem transcript_exhausted_chain (cik : Option String) (env : TranscriptEnv)
    (hall : ∀ i, 1 ≤ i → i ≤ 5 → truthyText (tierAttempt env i).text = false) :
    ((get_transcript cik env).1 = transcriptUnavailable ∧
     (get_transcript cik env).1.tier = 0 ∧
     (get_transcript cik env).1.status = "error" ∧
     (get_transcript cik env).1.transcript_text = "" ∧
     (get_transcript cik env).1.error =
       some "[Earnings call transcript not available from public sources]") ∧
    ∀ (oenv : OrchEnv) (analyst company : String) (selected : List String)
      (store : MemoStore) (rows : List (String × String)),
      oenv.excel = .ok rows →
      oenv.transcript = .ok (get_transcript cik env).1 →
      "earnings" ∈ selected →
      (run_orchestrator_inner oenv analyst company selected store).2.2 = none ∧
      ∃ memo : Memo,
        ((run_orchestrator_inner oenv analyst company selected store).2.1).lookup
            oenv.freshId = some memo ∧
        ∃ n : NarrativeRecord,
          memo.sections.lookup "earnings" = some (.narrative n) ∧
          n.confidence = ⟨"low", "Transcript not available"⟩ := by
  have h1 := hall 1 (by norm_num) (by norm_num)
  have h2 := hall 2 (by norm_num) (by norm_num)
  have h3 := hall 3 (by norm_num) (by norm_num)
  have h4 := hall 4 (by norm_num) (by norm_num)
  have h5 := hall 5 (by norm_num) (by norm_num)
  simp only [tierAttempt] at h1 h2 h3 h4 h5
  have hrec : (get_transcript cik env).1 = transcriptUnavailable := by
    cases cik <;> simp [get_transcript, get_transcript_from3, h1, h2, h3, h4, h5]
  refine ⟨⟨hrec, by rw [hrec]; rfl, by rw [hrec]; rfl, by rw [hrec]; rfl,
    by rw [hrec]; rfl⟩, ?_⟩
  intro oenv analyst company selected store rows hx htr hsel
  have hE := earningsGroup_of_unavailable oenv analyst (by rw [htr, hrec])
  simp only [run_orchestrator_inner, hx, hsel, if_true, hE]
  refine ⟨rfl, ?_⟩
  refine ⟨_, lookup_upsert_self .., ?_⟩
  refine ⟨⟨"earnings", (generate_section "earnings" oenv.earningsDraft).content,
    (generate_section "earnings" oenv.earningsDraft).status, [],
    confidence "low" "Transcript not available"⟩, ?_, rfl⟩
  by_cases hbio : "bio" ∈ selected <;> by_cases hfc : "forecast" ∈ selected <;>
    simp [hbio, hfc, List.lookup]

theorem get_transcript_first_success_witness :
    (get_transcript (some "0000895421") transcriptEnvTier3).1.tier = 3 ∧
    (get_transcript (some "0000895421") transcriptEnvTier3).1.status = "success" ∧
    (get_transcript (some "0000895421") transcriptEnvTier3).2 = List.range' 1 3 ∧
    List.Chain' (· < ·) (get_transcript (some "0000895421") transcriptEnvTier3).2 ∧
    (get_transcript (some "0000895421") transcriptEnvTier3).2.Nodup ∧
    ∀ i ∈ (get_transcript (some "0000895421") transcriptEnvTier3).2, i ≤ 3 :=
  get_transcript_first_success (some "0000895421") transcriptEnvTier3 3
    rfl (by norm_num) (by norm_num)
    (by intro i hi1 hi5; interval_cases i <;> rfl)

/-- Witness for C2: the exhausted chain fed into a one-section earnings run. -/
theorem transcript_exhausted_chain_witness :
    (run_orchestrator_inner orchEnvC2 "Mike Mayo" "MS" ["earnings"] []).2.2 =
      none ∧
    ∃ memo : Memo,
      ((run_orchestrator_inner orchEnvC2 "Mike Mayo" "MS" ["earnings"] []).2.1).lookup
          orchEnvC2.freshId = some memo ∧
      ∃ n : NarrativeRecord,
        memo.sections.lookup "earnings" = some (.narrative n) ∧
        n.confidence = ⟨"low", "Transcript not available"⟩ :=
  (transcript_exhausted_chain none transcriptEnvAllFail
      (by intro i hi1 hi5; interval_cases i <;> rfl)).2
    orchEnvC2 "Mike Mayo" "MS" ["earnings"] [] [("Mike Mayo", "Wells Fargo")]
    rfl rfl (by decide)

/-- C3: the ticker-edit parser satisfies both reference vectors, and for
every instruction and non-empty current list the subject symbol stays at
index 0 (never removed or replaced) and the result is non-empty. -/
theorem parse_ticker_changes_reference_vectors :
    parse_ticker_changes "Replace GS with BLK and add HOOD" ["MS", "GS", "JPM"] =
      ["MS", "BLK", "JPM", "HOOD"] ∧
    parse_ticker_changes "Remove MS" ["MS", "GS"] = ["MS", "GS"] ∧
    ∀ (instruction : String) (cur : List String), cur ≠ [] →
      (parse_ticker_changes instruction cur).head? = cur.head? ∧
        parse_ticker_changes instruction cur ≠ [] := by
  refine ⟨by decide, by decide, ?_⟩
  intro instruction cur h
  obtain ⟨t, ts, rfl⟩ := List.exists_cons_of_ne_nil h
  have hhead := parse_ticker_changes_head instruction t ts
  refine ⟨by rw [hhead]; rfl, ?_⟩
  intro he
  rw [he] at hhead
  simp at hhead

/-- Witness for C3's quantified part at a concrete drop instruction. -/
theorem parse_ticker_changes_reference_vectors_witness :
    (parse_ticker_changes "Drop GS" ["MS", "GS"]).head? =
      (["MS", "GS"] : List String).head? ∧
    parse_ticker_changes "Drop GS" ["MS", "GS"] ≠ [] :=
  parse_ticker_changes_reference_vectors.2.2 "Drop GS" ["MS", "GS"] (by decide)

/-- C9: `get_valuation_data` returns a mapping whose keys are the requested
tickers (deduplicated to first occurrence, as Python dict assignment does)
with an entry for every requested ticker; an individually failed ticker
yields a row of metric labels all mapped to `None` (never aborting the
fan-out); and a failed search sub-query yields `[]` rather than propagating
a fault. -/
theorem valuation_fanout_tolerates_failures (env : MarketEnv)
    (tickers : List String) :
    (get_valuation_data env tickers).status = "success" ∧
    (get_valuation_data env tickers).tickers.map Prod.fst =
      dedupFirst [] tickers ∧
    (∀ t ∈ tickers, (get_valuation_data env tickers).tickers.lookup t =
      some (fetch_ticker env t)) ∧
    (∀ t ∈ tickers, env.info t = none →
      (get_valuation_data env tickers).tickers.lookup t =
        some (METRICS.map fun m => (m.1, none))) ∧
    research_search .exn = [] ∧ research_search (.ok none) = [] := by
  refine ⟨rfl, ?_, ?_, ?_, rfl, rfl⟩
  · simpa [get_valuation_data] using
      keys_dictInsertAll (fetch_ticker env) tickers []
  · intro t ht
    simpa [get_valuation_data] using
      dictInsertAll_lookup_mem (fetch_ticker env) tickers t [] ht
  · intro t ht hnone
    have h := dictInsertAll_lookup_mem (fetch_ticker env) tickers t [] ht
    simp only [get_valuation_data] at h ⊢
    rw [h, fetch_ticker, hnone]

/-- Witness for C9: MS fails, GS succeeds; MS still gets an all-null row. -/
theorem valuation_fanout_tolerates_failures_witness :
    (get_valuation_data marketEnvW ["MS", "GS"]).tickers.lookup "MS" =
      some (METRICS.map fun m => (m.1, none)) :=
  (valuation_fanout_tolerates_failures marketEnvW ["MS", "GS"]).2.2.2.1 "MS"
    (by decide) rfl

/-- C10: `_top_sources` returns at most 5 entries with pairwise-distinct
domains, every entry stems from a search result with a non-empty URL, and
the entry order is the first-occurrence order of domains in the input. -/
theorem top_sources_invariants (netloc : String → Option String)
    (results : List SearchResult) :
    (top_sources netloc results 5).length ≤ 5 ∧
    ((top_sources netloc results 5).map (fun s => s.domain)).Nodup ∧
    (∀ s ∈ top_sources netloc results 5, ∃ r ∈ results, r.href ≠ "" ∧
      s.url = r.href ∧ s.domain = extract_domain netloc r.href) ∧
    (top_sources netloc results 5).map (fun s => s.domain) =
      (dedupFirst [] ((results.filter (fun r => r.href ≠ "")).map
        (fun r => extract_domain netloc r.href))).take 5 := by
  have hd : (top_sources netloc results 5).map (fun s => s.domain) =
      (dedupFirst [] ((results.filter (fun r => r.href ≠ "")).map
        (fun r => extract_domain netloc r.href))).take 5 := by
    simpa [top_sources] using
      top_sources_go_domains netloc 5 results [] [] (by norm_num)
  refine ⟨?_, ?_, ?_, hd⟩
  · have hl := congrArg List.length hd
    simp only [List.length_map, List.length_take] at hl
    omega
  · rw [hd]
    exact ((dedupFirst_nodup _ []).1).sublist (List.take_sublist ..)
  · intro s hs
    rcases top_sources_go_mem netloc 5 results [] [] s
        (by simpa [top_sources] using hs) with h | h
    · simp at h
    · exact h

theorem bioGroup_no_terminal (env : OrchEnv) (analyst : String) :
    ∀ e ∈ (bioGroup env analyst).1, isTerminal e = false := by
  intro e he
  simp only [bioGroup, List.mem_cons, List.not_mem_nil, or_false] at he
  rcases he with rfl | rfl | rfl | rfl | rfl <;> rfl

theorem forecastGroup_no_terminal (env : OrchEnv) (analyst firm : String) :
    ∀ e ∈ (forecastGroup env analyst firm).1, isTerminal e = false := by
  intro e he
  cases henv : env.forecastRead with
  | ok d =>
      simp only [forecastGroup, henv, List.mem_cons, List.not_mem_nil,
        or_false] at he
      rcases he with rfl | rfl | rfl | rfl | rfl <;> rfl
  | error msg =>
      simp only [forecastGroup, henv, List.mem_cons, List.not_mem_nil,
        or_false] at he
      rcases he with rfl | rfl | rfl <;> rfl

theorem earningsGroup_no_terminal (env : OrchEnv) (analyst : String) :
    ∀ e ∈ (earningsGroup env analyst).1, isTerminal e = false := by
  intro e he
  simp only [earningsGroup] at he
  split at he
  · simp only [List.mem_cons, List.not_mem_nil, or_false] at he
    subst he
    rfl
  · simp only [List.mem_cons, List.not_mem_nil, or_false] at he
    rcases he with rfl | rfl | rfl | rfl | rfl | rfl | rfl <;> rfl

theorem peerGroup_no_terminal (env : OrchEnv) :
    ∀ e ∈ (peerGroup env).1, isTerminal e = false := by
  intro e he
  simp only [peerGroup, List.mem_cons, List.not_mem_nil, or_false] at he
  rcases he with rfl | rfl | rfl | rfl | rfl <;> rfl

theorem valuationGroup_no_terminal (env : OrchEnv) :
    ∀ e ∈ (valuationGroup env).1, isTerminal e = false := by
  intro e he
  cases henv : env.valuation with
  | ok result =>
      simp only [valuationGroup, henv] at he
      split at he
      · simp only [List.mem_cons, List.not_mem_nil, or_false] at he
        rcases he with rfl | rfl | rfl <;> rfl
      · simp only [List.mem_cons, List.not_mem_nil, or_false] at he
        rcases he with rfl | rfl <;> rfl
  | error msg =>
      simp only [valuationGroup, henv, List.mem_cons, List.not_mem_nil,
        or_false] at he
      rcases he with rfl | rfl <;> rfl

theorem single_terminal_spec (pre : List Event) (t : Event)
    (hpre : ∀ e ∈ pre, isTerminal e = false) (ht : isTerminal t = true) :
    (pre ++ [t]).getLast? = some t ∧
    (∀ e ∈ (pre ++ [t]).dropLast, isTerminal e = false) ∧
    ((pre ++ [t]).filter (fun e => isTerminal e)).length = 1 := by
  refine ⟨List.getLast?_concat _, ?_, ?_⟩
  · rw [List.dropLast_concat]
    exact hpre
  · rw [List.filter_append]
    have hnil : pre.filter (fun e => isTerminal e) = [] :=
      List.filter_eq_nil_iff.mpr (by intro e he; simp [hpre e he])
    simp [hnil, ht]

theorem inner_terminal_shape (env : OrchEnv) (analyst company : String)
    (selected : List String) (store : MemoStore) :
    ((run_orchestrator_inner env analyst company selected store).2.2 ≠ none →
      ∀ e ∈ (run_orchestrator_inner env analyst company selected store).1,
        isTerminal e = false) ∧
    ((run_orchestrator_inner env analyst company selected store).2.2 = none →
      ∃ pre, (run_orchestrator_inner env analyst company selected store).1 =
          pre ++ [Event.completeEv env.freshId] ∧
        ∀ e ∈ pre, isTerminal e = false) := by
  cases hx : env.excel with
  | error e =>
      simp [run_orchestrator_inner, hx]
  | ok rows =>
      by_cases hearn : "earnings" ∈ selected
      · cases hcr : (earningsGroup env analyst).2.2 with
        | true =>
            constructor
            · intro _ e he
              simp only [run_orchestrator_inner, hx, hearn, if_true, hcr,
                if_pos, List.mem_cons, List.mem_append] at he
              rcases he with rfl | (hb | hf) | he3
              · rfl
              · split at hb
                · exact bioGroup_no_terminal env analyst e hb
                · simp at hb
              · split at hf
                · exact forecastGroup_no_terminal env analyst _ e hf
                · simp at hf
              · exact earningsGroup_no_terminal env analyst e he3
            · intro hnone
              simp only [run_orchestrator_inner, hx, hearn, if_true, hcr] at hnone
              simp at hnone
        | false =>
            constructor
            · intro hne
              exfalso
              apply hne
              simp only [run_orchestrator_inner, hx, hearn, if_true, hcr]
              simp
            · intro _
              refine ⟨Event.stepsEv (build_steps selected) ::
                ((if "bio" ∈ selected then
                    ((bioGroup env analyst).1, [("bio", (bioGroup env analyst).2)])
                  else ([], [])).1 ++
                 (if "forecast" ∈ selected then
                    ((forecastGroup env analyst (firmOf rows analyst)).1,
                     [("forecast", (forecastGroup env analyst (firmOf rows analyst)).2)])
                  else ([], [])).1 ++
                 (earningsGroup env analyst).1 ++
                 (if "peer" ∈ selected then
                    ((peerGroup env).1, [("peer", (peerGroup env).2)])
                  else ([], [])).1 ++
                 (if "valuation" ∈ selected then
                    ((valuationGroup env).1, [("valuation", (valuationGroup env).2)])
                  else ([], [])).1 ++
                 [Event.stepUpdate "quality_check" "running",
                  Event.qualityCheckEv env.qc,
                  Event.stepUpdate "quality_check" "complete"]), ?_, ?_⟩
              · simp only [run_orchestrator_inner, hx, hearn, if_true, hcr]
                simp [List.append_assoc]
              · intro e he
                simp only [List.mem_cons, List.mem_append] at he
                rcases he with rfl | ((((hb | hf) | he3) | hp) | hv) | hl
                · rfl
                · split at hb
                  · exact bioGroup_no_terminal env analyst e hb
                  · simp at hb
                · split at hf
                  · exact forecastGroup_no_terminal env analyst _ e hf
                  · simp at hf
                · exact earningsGroup_no_terminal env analyst e he3
                · split at hp
                  · exact peerGroup_no_terminal env e hp
                  · simp at hp
                · split at hv
                  · exact valuationGroup_no_terminal env e hv
                  · simp at hv
                · rcases hl with rfl | rfl | rfl | hnil
                  · rfl
                  · rfl
                  · rfl
                  · simp at hnil
      · constructor
        · intro hne
          exfalso
          apply hne
          simp only [run_orchestrator_inner, hx, hearn, if_false]
          simp
        · intro _
          refine ⟨Event.stepsEv (build_steps selected) ::
            ((if "bio" ∈ selected then
                ((bioGroup env analyst).1, [("bio", (bioGroup env analyst).2)])
              else ([], [])).1 ++
             (if "forecast" ∈ selected then
                ((forecastGroup env analyst (firmOf rows analyst)).1,
                 [("forecast", (forecastGroup env analyst (firmOf rows analyst)).2)])
              else ([], [])).1 ++
             (if "peer" ∈ selected then
                ((peerGroup env).1, [("peer", (peerGroup env).2)])
              else ([], [])).1 ++
             (if "valuation" ∈ selected then
                ((valuationGroup env).1, [("valuation", (valuationGroup env).2)])
              else ([], [])).1 ++
             [Event.stepUpdate "quality_check" "running",
              Event.qualityCheckEv env.qc,
              Event.stepUpdate "quality_check" "complete"]), ?_, ?_⟩
          · simp only [run_orchestrator_inner, hx, hearn, if_false]
            simp [List.append_assoc]
          · intro e he
            simp only [List.mem_cons, List.mem_append] at he
            rcases he with rfl | (((hb | hf) | hp) | hv) | hl
            · rfl
            · split at hb
              · exact bioGroup_no_terminal env analyst e hb
              · simp at hb
            · split at hf
              · exact forecastGroup_no_terminal env analyst _ e hf
              · simp at hf
            · split at hp
              · exact peerGroup_no_terminal env e hp
              · simp at hp
            · split at hv
              · exact valuationGroup_no_terminal env e hv
              · simp at hv
            · rcases hl with rfl | rfl | rfl | hnil
              · rfl
              · rfl
              · rfl
              · simp at hnil

theorem lookup_isSome_iff {β : Type} (l : List (String × β)) (k : String) :
    (l.lookup k).isSome = true ↔ k ∈ l.map Prod.fst := by
  induction l with
  | nil => simp [List.lookup]
  | cons hd tl ih =>
      by_cases hk : k = hd.1
      · subst hk
        simp [List.lookup]
      · have hb : (k == hd.1) = false := beq_eq_false_iff_ne.mpr hk
        simp [List.lookup, hb, ih, hk]

theorem earningsGroup_record_of_no_crash (env : OrchEnv) (analyst : String)
    (h : (earningsGroup env analyst).2.2 = false) :
    ∃ r, (earningsGroup env analyst).2.1 = some r := by
  rcases hg : earningsGroup env analyst with ⟨evsE, recE, crashE⟩
  rw [hg] at h
  simp only at h
  subst h
  simp only [earningsGroup] at hg
  split at hg
  · cases hg
  · cases hg
    exact ⟨_, rfl⟩

/-- C6: a run that emits `complete`, with each selected key among the five
known section keys, persists under the fresh session identifier a Report
whose section map holds exactly the selected keys — a record for every
selected key (even when its leaves failed) and none for any unselected
key — with the synthesis verdict stored alongside. -/
theorem completed_run_sections_exact (env : OrchEnv) (analyst company : String)
    (selected : List String) (store : MemoStore)
    (hsub : ∀ k ∈ selected,
      k ∈ (["bio", "forecast", "earnings", "peer", "valuation"] : List String))
    (hcomplete : ∃ id, Event.completeEv id ∈
      (run_orchestrator env analyst company selected store).1) :
    ∃ memo : Memo,
      (run_orchestrator env analyst company selected store).2.lookup env.freshId =
        some memo ∧
      memo.sections.map Prod.fst =
        (["bio", "forecast", "earnings", "peer", "valuation"] : List String).filter
          (fun k => k ∈ selected) ∧
      (∀ k : String, (memo.sections.lookup k).isSome = true ↔ k ∈ selected) ∧
      memo.quality_check = some env.qc := by
  have hcrash :
      (run_orchestrator_inner env analyst company selected store).2.2 = none := by
    by_contra hne
    have hterm := (inner_terminal_shape env analyst company selected store).1 hne
    obtain ⟨id, hid⟩ := hcomplete
    rcases hInner : run_orchestrator_inner env analyst company selected store with
      ⟨evs, st2, crash⟩
    rw [hInner] at hne hterm
    cases crash with
    | none => exact hne rfl
    | some msg =>
        have hevs : (run_orchestrator env analyst company selected store).1 =
            evs ++ [Event.serverError ("Orchestrator error: " ++ msg)] := by
          simp [run_orchestrator, hInner]
        rw [hevs] at hid
        rcases List.mem_append.mp hid with h | h
        · have := hterm _ h
          simp [isTerminal] at this
        · simp at h
  have hstore : (run_orchestrator env analyst company selected store).2 =
      (run_orchestrator_inner env analyst company selected store).2.1 := by
    rcases hInner : run_orchestrator_inner env analyst company selected store with
      ⟨evs, st2, crash⟩
    cases crash <;> simp [run_orchestrator, hInner]
  rw [hstore]
  suffices hS : ∃ memo : Memo,
      (run_orchestrator_inner env analyst company selected store).2.1.lookup
        env.freshId = some memo ∧
      memo.sections.map Prod.fst =
        (["bio", "forecast", "earnings", "peer", "valuation"] : List String).filter
          (fun k => k ∈ selected) ∧
      memo.quality_check = some env.qc by
    obtain ⟨memo, hm, h2, hq⟩ := hS
    refine ⟨memo, hm, h2, ?_, hq⟩
    intro k
    rw [lookup_isSome_iff, h2, List.mem_filter]
    simp only [decide_eq_true_eq]
    exact ⟨fun h => h.2, fun h => ⟨hsub k h, h⟩⟩
  cases hx : env.excel with
  | error e =>
      exfalso
      simp [run_orchestrator_inner, hx] at hcrash
  | ok rows =>
      by_cases hearn : "earnings" ∈ selected
      · cases hcr : (earningsGroup env analyst).2.2 with
        | true =>
            exfalso
            simp [run_orchestrator_inner, hx, hearn, hcr] at hcrash
        | false =>
            obtain ⟨recE, hrecE⟩ := earningsGroup_record_of_no_crash env analyst hcr
            by_cases hbio : "bio" ∈ selected <;>
              by_cases hfc : "forecast" ∈ selected <;>
              by_cases hpeer : "peer" ∈ selected <;>
              by_cases hval : "valuation" ∈ selected
            all_goals
              simp only [run_orchestrator_inner, hx, hearn, hcr, hrecE, hbio, hfc,
                hpeer, hval, if_true, if_false, ite_true, ite_false,
                List.append_nil, List.nil_append, List.cons_append]
            all_goals refine ⟨_, lookup_upsert_self .., ?_, rfl⟩
            all_goals simp [List.filter, hbio, hfc, hearn, hpeer, hval]
      · by_cases hbio : "bio" ∈ selected <;>
          by_cases hfc : "forecast" ∈ selected <;>
          by_cases hpeer : "peer" ∈ selected <;>
          by_cases hval : "valuation" ∈ selected
        all_goals
          simp only [run_orchestrator_inner, hx, hearn, hbio, hfc, hpeer, hval,
            if_true, if_false, ite_true, ite_false, List.append_nil,
            List.nil_append, List.cons_append]
        all_goals refine ⟨_, lookup_upsert_self .., ?_, rfl⟩
        all_goals simp [List.filter, hbio, hfc, hearn, hpeer, hval]

/-- C7: one orchestrator run emits exactly one terminal event, and it is the
last event of the stream: either a single `complete` carrying the freshly
generated session identifier, or a single `server_error` from the top-level
guard — never both, and never a silently terminated stream. -/
theorem orchestrator_single_terminal (env : OrchEnv) (analyst company : String)
    (selected : List String) (store : MemoStore) :
    ∃ t : Event,
      (run_orchestrator env analyst company selected store).1.getLast? = some t ∧
      isTerminal t = true ∧
      (∀ e ∈ (run_orchestrator env analyst company selected store).1.dropLast,
        isTerminal e = false) ∧
      ((run_orchestrator env analyst company selected store).1.filter
        (fun e => isTerminal e)).length = 1 ∧
      (t = Event.completeEv env.freshId ∨ ∃ m, t = Event.serverError m) := by
  obtain ⟨hsome, hnone⟩ := inner_terminal_shape env analyst company selected store
  rcases hInner : run_orchestrator_inner env analyst company selected store with
    ⟨evs, st2, crash⟩
  rw [hInner] at hsome hnone
  cases crash with
  | none =>
      obtain ⟨pre, hpre_eq, hpre⟩ := hnone rfl
      simp only at hpre_eq
      have hevs : (run_orchestrator env analyst company selected store).1 =
          pre ++ [Event.completeEv env.freshId] := by
        simp [run_orchestrator, hInner, hpre_eq]
      refine ⟨Event.completeEv env.freshId, ?_⟩
      rw [hevs]
      obtain ⟨hA, hB, hC⟩ := single_terminal_spec pre (Event.completeEv env.freshId) hpre rfl
      exact ⟨hA, rfl, hB, hC, Or.inl rfl⟩
  | some msg =>
      have hpre := hsome (by simp)
      simp only at hpre
      have hevs : (run_orchestrator env analyst company selected store).1 =
          evs ++ [Event.serverError ("Orchestrator error: " ++ msg)] := by
        simp [run_orchestrator, hInner]
      refine ⟨Event.serverError ("Orchestrator error: " ++ msg), ?_⟩
      rw [hevs]
      obtain ⟨hA, hB, hC⟩ := single_terminal_spec evs
        (Event.serverError ("Orchestrator error: " ++ msg)) hpre rfl
      exact ⟨hA, rfl, hB, hC, Or.inr ⟨_, rfl⟩⟩

/-- Witness for C10's per-entry provenance property. -/
theorem top_sources_invariants_witness :
    ∃ r ∈ searchResultsW, r.href ≠ "" ∧
      (Source.mk "https://a.example/x" "a.example" "Title A").url = r.href ∧
      (Source.mk "https://a.example/x" "a.example" "Title A").domain =
        extract_domain netlocW r.href :=
  (top_sources_invariants netlocW searchResultsW).2.2.1
    ⟨"https://a.example/x", "a.example", "Title A"⟩ (by decide)

/-- Witness for C7 at a concrete environment and selection. -/
theorem orchestrator_single_terminal_witness :
    ∃ t : Event,
      (run_orchestrator orchEnvC2 "Mike Mayo" "MS" ["valuation"] []).1.getLast? =
        some t ∧
      isTerminal t = true ∧
      (∀ e ∈ (run_orchestrator orchEnvC2 "Mike Mayo" "MS" ["valuation"] []).1.dropLast,
        isTerminal e = false) ∧
      ((run_orchestrator orchEnvC2 "Mike Mayo" "MS" ["valuation"] []).1.filter
        (fun e => isTerminal e)).length = 1 ∧
      (t = Event.completeEv orchEnvC2.freshId ∨ ∃ m, t = Event.serverError m) :=
  orchestrator_single_terminal orchEnvC2 "Mike Mayo" "MS" ["valuation"] []

/-- Witness for C6: a completed one-section run over a fresh store. -/
theorem completed_run_sections_exact_witness :
    ∃ memo : Memo,
      (run_orchestrator orchEnvC2 "Mike Mayo" "MS" ["valuation"] []).2.lookup
        orchEnvC2.freshId = some memo ∧
      memo.sections.map Prod.fst =
        (["bio", "forecast", "earnings", "peer", "valuation"] : List String).filter
          (fun k => k ∈ (["valuation"] : List String)) ∧
      (∀ k : String, (memo.sections.lookup k).isSome = true ↔
        k ∈ (["valuation"] : List String)) ∧
      memo.quality_check = some orchEnvC2.qc :=
  completed_run_sections_exact orchEnvC2 "Mike Mayo" "MS" ["valuation"] []
    (by decide) ⟨"abc12345", by decide⟩

/-- Counterexample to C4 as stated: a draft-only bio regeneration whose leaf
fails but whose request carries a `current_content` of "B" differing from
the stored "A" rewrites the stored content to "B" (not byte-identical), and
the section stream reports `regen_section` + `regen_complete` with no
`regen_error` event — no error status reaches the client. -/
theorem draft_only_failure_counterexample :
    recContent (memoA.sections.lookup "bio") = "A" ∧
    c4Run.2.1.lookup "m1" = some
      ⟨"Mike Mayo", "Wells Fargo", "MS", "January 05, 2026",
       [("bio", .narrative ⟨"bio", "B", "error", [], ⟨"high", "3 sources found"⟩⟩)],
       some ⟨"pass", "ok"⟩⟩ ∧
    c4Run.1 = [Event.regenStart "bio",
      Event.regenStep "bio" "Applying changes with Claude",
      Event.regenSection "bio" "B" [] ⟨"high", "3 sources found"⟩,
      Event.regenComplete "bio"] := by
  refine ⟨rfl, ?_, ?_⟩ <;> decide

/-- C4 (amended): for a draft-only regeneration of a narrative section whose
drafting leaf fails and whose request supplies no `current_content`
override, the stored content stays byte-identical to its pre-request value;
the failure is recorded only in the stored record's status field ("error")
while the stream still ends with `regen_complete` (no `regen_error`), the
prior sources and confidence are carried over, and nothing else in the
stored Report or the store is modified. -/
theorem draft_only_failure_preserves_content (env : RegenEnv)
    (sec analyst instruction : String) (store : MemoStore) (memoId : String)
    (memo : Memo) (errMsg : String)
    (hsec : sec = "bio" ∨ sec = "earnings" ∨ sec = "peer")
    (hmemo : store.lookup memoId = some memo)
    (hfail : env.editSec = .error errMsg)
    (hcontent : recContent (memo.sections.lookup sec) ≠ "") :
    ∃ memo2 : Memo,
      (run_regeneration env sec analyst instruction false store memoId "").2.1.lookup
        memoId = some memo2 ∧
      memo2.sections.lookup sec = some (.narrative ⟨sec,
        recContent (memo.sections.lookup sec), "error",
        recSources (memo.sections.lookup sec),
        recConfidence (confidence "medium" "Edited section")
          (memo.sections.lookup sec)⟩) ∧
      (∀ k, k ≠ sec → memo2.sections.lookup k = memo.sections.lookup k) ∧
      memo2.analyst = memo.analyst ∧ memo2.firm = memo.firm ∧
      memo2.company = memo.company ∧ memo2.date = memo.date ∧
      memo2.quality_check = memo.quality_check ∧
      (∀ id, id ≠ memoId →
        (run_regeneration env sec analyst instruction false store memoId "").2.1.lookup
          id = store.lookup id) ∧
      (run_regeneration env sec analyst instruction false store memoId "").1 =
        [Event.regenStart sec,
         Event.regenStep sec "Applying changes with Claude",
         Event.regenSection sec (recContent (memo.sections.lookup sec))
           (recSources (memo.sections.lookup sec))
           (recConfidence (confidence "medium" "Edited section")
             (memo.sections.lookup sec)),
         Event.regenComplete sec] := by
  have hrun : run_regeneration env sec analyst instruction false store memoId "" =
      ([Event.regenStart sec,
        Event.regenStep sec "Applying changes with Claude",
        Event.regenSection sec (recContent (memo.sections.lookup sec))
          (recSources (memo.sections.lookup sec))
          (recConfidence (confidence "medium" "Edited section")
            (memo.sections.lookup sec)),
        Event.regenComplete sec],
       upsert memoId
         {memo with sections := (upsert sec (.narrative ⟨sec,
           recContent (memo.sections.lookup sec), "error",
           recSources (memo.sections.lookup sec),
           recConfidence (confidence "medium" "Edited section")
             (memo.sections.lookup sec)⟩) memo.sections)} store, []) := by
    simp [run_regeneration, hmemo, hsec, hcontent, edit_section, hfail]
  rw [hrun]
  refine ⟨_, lookup_upsert_self .., lookup_upsert_self .., ?_, rfl, rfl, rfl, rfl,
    rfl, ?_, rfl⟩
  · intro k hk
    exact lookup_upsert_ne sec k _ memo.sections hk
  · intro id hid
    exact lookup_upsert_ne memoId id _ store hid

/-- Witness for the amended C4 at the concrete failing-leaf environment. -/
theorem draft_only_failure_preserves_content_witness :
    ∃ memo2 : Memo,
      (run_regeneration regenEnvFail "bio" "Mike Mayo" "tighten wording" false
        storeA "m1" "").2.1.lookup "m1" = some memo2 ∧
      memo2.sections.lookup "bio" = some (.narrative ⟨"bio",
        recContent (memoA.sections.lookup "bio"), "error",
        recSources (memoA.sections.lookup "bio"),
        recConfidence (confidence "medium" "Edited section")
          (memoA.sections.lookup "bio")⟩) ∧
      (∀ k, k ≠ "bio" → memo2.sections.lookup k = memoA.sections.lookup k) ∧
      memo2.analyst = memoA.analyst ∧ memo2.firm = memoA.firm ∧
      memo2.company = memoA.company ∧ memo2.date = memoA.date ∧
      memo2.quality_check = memoA.quality_check ∧
      (∀ id, id ≠ "m1" →
        (run_regeneration regenEnvFail "bio" "Mike Mayo" "tighten wording" false
          storeA "m1" "").2.1.lookup id = storeA.lookup id) ∧
      (run_regeneration regenEnvFail "bio" "Mike Mayo" "tighten wording" false
        storeA "m1" "").1 =
        [Event.regenStart "bio",
         Event.regenStep "bio" "Applying changes with Claude",
         Event.regenSection "bio" (recContent (memoA.sections.lookup "bio"))
           (recSources (memoA.sections.lookup "bio"))
           (recConfidence (confidence "medium" "Edited section")
             (memoA.sections.lookup "bio")),
         Event.regenComplete "bio"] :=
  draft_only_failure_preserves_content regenEnvFail "bio" "Mike Mayo"
    "tighten wording" storeA "m1" memoA "API connection error"
    (Or.inl rfl) rfl rfl (by decide)

/-- Counterexample to C8 as stated: the instruction
"Replace GS with UBS and add GS and remove UBS" over stored tickers
MS, GS, JPM parses to MS, JPM, GS — the same symbol *set* — yet the
draft-only valuation path triggers a fresh market pull and replaces the
stored record instead of returning it unchanged. -/
theorem valuation_set_equal_still_pulls_counterexample :
    parse_ticker_changes "Replace GS with UBS and add GS and remove UBS"
      ["MS", "GS", "JPM"] = ["MS", "JPM", "GS"] ∧
    (["MS", "JPM", "GS"] : List String).toFinset =
      (["MS", "GS", "JPM"] : List String).toFinset ∧
    c8Run.2.2 = [["MS", "JPM", "GS"]] ∧
    c8Run.2.1 ≠ storeV := by
  exact ⟨by decide, by decide, by decide, by decide⟩

/-- C8 (amended, list equality in place of set equality): in a draft-only
valuation regeneration, if the ticker list parsed from the instruction
equals the stored ticker list (in order), the stored structured data is
re-emitted unchanged with no fresh acquisition; if it differs as a list, a
fresh market-data pull for exactly the new ticker list is triggered and, on
its success, the stored record is replaced by the newly acquired data. -/
theorem valuation_draft_only_list_equality (env : RegenEnv)
    (analyst instruction : String) (store : MemoStore) (memoId : String)
    (memo : Memo) (hmemo : store.lookup memoId = some memo) :
    (parse_ticker_changes instruction
        (existingTickersOf (memo.sections.lookup "valuation")) =
      existingTickersOf (memo.sections.lookup "valuation") →
      (run_regeneration env "valuation" analyst instruction false store
        memoId "").2.2 = [] ∧
      (run_regeneration env "valuation" analyst instruction false store
        memoId "").2.1 = store ∧
      ∀ v : ValuationRecord,
        memo.sections.lookup "valuation" = some (.valuationRec v) →
        v.data.tickers ≠ [] →
        Event.regenValuation v ∈
          (run_regeneration env "valuation" analyst instruction false store
            memoId "").1) ∧
    (parse_ticker_changes instruction
        (existingTickersOf (memo.sections.lookup "valuation")) ≠
      existingTickersOf (memo.sections.lookup "valuation") →
      (run_regeneration env "valuation" analyst instruction false store
        memoId "").2.2 =
        [parse_ticker_changes instruction
          (existingTickersOf (memo.sections.lookup "valuation"))] ∧
      ∀ result : ValResult, env.valuation = .ok result →
        result.status = "success" →
        ∃ memo2 : Memo,
          (run_regeneration env "valuation" analyst instruction false store
            memoId "").2.1.lookup memoId = some memo2 ∧
          memo2.sections.lookup "valuation" = some (.valuationRec
            (valuationPullRecord result (parse_ticker_changes instruction
              (existingTickersOf (memo.sections.lookup "valuation"))))) ∧
          (∀ k, k ≠ "valuation" →
            memo2.sections.lookup k = memo.sections.lookup k)) := by
  constructor
  · intro h
    cases hlv : memo.sections.lookup "valuation" with
    | none =>
        rw [hlv] at h
        refine ⟨?_, ?_, ?_⟩
        · simp [run_regeneration, hmemo, hlv, h]
        · simp [run_regeneration, hmemo, hlv, h]
        · intro v hv
          cases hv
    | some r =>
        cases r with
        | valuationRec v =>
            rw [hlv] at h
            by_cases ht : v.data.tickers = []
            · refine ⟨?_, ?_, ?_⟩
              · simp [run_regeneration, hmemo, hlv, h, ht]
              · simp [run_regeneration, hmemo, hlv, h, ht]
              · intro v2 hv2 ht2
                cases hv2
                exact absurd ht ht2
            · refine ⟨?_, ?_, ?_⟩
              · simp [run_regeneration, hmemo, hlv, h, ht]
              · simp [run_regeneration, hmemo, hlv, h, ht]
              · intro v2 hv2 ht2
                cases hv2
                simp [run_regeneration, hmemo, hlv, h, ht]
        | narrative n =>
            rw [hlv] at h
            refine ⟨by simp [run_regeneration, hmemo, hlv, h],
              by simp [run_regeneration, hmemo, hlv, h], ?_⟩
            intro v hv
            cases hv
        | forecastRec f =>
            rw [hlv] at h
            refine ⟨by simp [run_regeneration, hmemo, hlv, h],
              by simp [run_regeneration, hmemo, hlv, h], ?_⟩
            intro v hv
            cases hv
        | errorRec e s c =>
            rw [hlv] at h
            refine ⟨by simp [run_regeneration, hmemo, hlv, h],
              by simp [run_regeneration, hmemo, hlv, h], ?_⟩
            intro v hv
            cases hv
  · intro hne
    constructor
    · cases hv : env.valuation with
      | ok result =>
          by_cases hst : result.status = "success" <;>
            simp [run_regeneration, hmemo, hne, hv, hst]
      | error e =>
          simp [run_regeneration, hmemo, hne, hv]
    · intro result hv hst
      have hstore2 : (run_regeneration env "valuation" analyst instruction false
          store memoId "").2.1 =
          upsert memoId {memo with sections := (upsert "valuation"
            (.valuationRec (valuationPullRecord result
              (parse_ticker_changes instruction
                (existingTickersOf (memo.sections.lookup "valuation")))))
            memo.sections)} store := by
        simp [run_regeneration, hmemo, hne, hv, hst]
      rw [hstore2]
      refine ⟨_, lookup_upsert_self .., lookup_upsert_self .., ?_⟩
      intro k hk
      exact lookup_upsert_ne "valuation" k _ memo.sections hk

/-- Witness for the amended C8: the empty instruction leaves the stored
valuation untouched with no pull, and the stored record is re-emitted. -/
theorem valuation_draft_only_list_equality_witness :
    (run_regeneration regenEnvV "valuation" "Mike Mayo" "" false storeV
      "m1" "").2.2 = [] ∧
    (run_regeneration regenEnvV "valuation" "Mike Mayo" "" false storeV
      "m1" "").2.1 = storeV ∧
    Event.regenValuation
      ⟨⟨"success", [("MS", []), ("GS", []), ("JPM", [])], "2026-01-05 09:00 ET", []⟩,
       [], ⟨"high", "All 3 tickers retrieved"⟩, none⟩ ∈
      (run_regeneration regenEnvV "valuation" "Mike Mayo" "" false storeV
        "m1" "").1 := by
  have h := (valuation_draft_only_list_equality regenEnvV "Mike Mayo" "" storeV
    "m1" memoV rfl).1 (by decide)
  exact ⟨h.1, h.2.1, h.2.2 _ (by decide) (by decide)⟩

/-- C5: a re-search regeneration that completes successfully fully replaces
the target section's stored record with the freshly computed one (provenance
and confidence included, as `reSearchRecord` builds them from the fresh leaf
outcomes), while every sibling section record, every other field of the
memo, and every other store entry stay unchanged. -/
theorem re_search_full_replacement (env : RegenEnv)
    (sec analyst instruction : String) (store : MemoStore)
    (memoId currentContent : String) (memo : Memo)
    (hmemo : store.lookup memoId = some memo)
    (hsec : sec ∈
      (["bio", "forecast", "earnings", "peer", "valuation"] : List String))
    (hcomplete : Event.regenComplete sec ∈
      (run_regeneration env sec analyst instruction true store memoId
        currentContent).1) :
    ∃ rec : SectionRecord,
      reSearchRecord env sec analyst memo.firm instruction
        (existingTickersOf (memo.sections.lookup sec)) = some rec ∧
      ∃ memo2 : Memo,
        (run_regeneration env sec analyst instruction true store memoId
          currentContent).2.1.lookup memoId = some memo2 ∧
        memo2.sections.lookup sec = some rec ∧
        (∀ k, k ≠ sec → memo2.sections.lookup k = memo.sections.lookup k) ∧
        memo2.analyst = memo.analyst ∧ memo2.firm = memo.firm ∧
        memo2.company = memo.company ∧ memo2.date = memo.date ∧
        memo2.quality_check = memo.quality_check ∧
        (∀ id, id ≠ memoId →
          (run_regeneration env sec analyst instruction true store memoId
            currentContent).2.1.lookup id = store.lookup id) := by
  have hsec5 : sec = "bio" ∨ sec = "forecast" ∨ sec = "earnings" ∨
      sec = "peer" ∨ sec = "valuation" := by simpa using hsec
  rcases hsec5 with rfl | rfl | rfl | rfl | rfl
  · have hstore2 : (run_regeneration env "bio" analyst instruction true store
        memoId currentContent).2.1 =
        upsert memoId {memo with sections := (upsert "bio"
          (.narrative (reSearchBioRecord env)) memo.sections)} store := by
      simp [run_regeneration, hmemo]
    refine ⟨.narrative (reSearchBioRecord env), by simp [reSearchRecord], ?_⟩
    rw [hstore2]
    refine ⟨_, lookup_upsert_self .., lookup_upsert_self .., ?_, rfl, rfl, rfl,
      rfl, rfl, ?_⟩
    · intro k hk
      exact lookup_upsert_ne "bio" k _ memo.sections hk
    · intro id hid
      exact lookup_upsert_ne memoId id _ store hid
  · cases hf : env.forecastRead with
    | ok d =>
        have hstore2 : (run_regeneration env "forecast" analyst instruction true
            store memoId currentContent).2.1 =
            upsert memoId {memo with sections := (upsert "forecast"
              (.forecastRec (reSearchForecastRecord env analyst memo.firm
                instruction d)) memo.sections)} store := by
          simp [run_regeneration, hmemo, hf]
        refine ⟨.forecastRec (reSearchForecastRecord env analyst memo.firm
          instruction d), by simp [reSearchRecord, hf], ?_⟩
        rw [hstore2]
        refine ⟨_, lookup_upsert_self .., lookup_upsert_self .., ?_, rfl, rfl,
          rfl, rfl, rfl, ?_⟩
        · intro k hk
          exact lookup_upsert_ne "forecast" k _ memo.sections hk
        · intro id hid
          exact lookup_upsert_ne memoId id _ store hid
    | error e =>
        exfalso
        simp [run_regeneration, hmemo, hf] at hcomplete
  · have hstore2 : (run_regeneration env "earnings" analyst instruction true
        store memoId currentContent).2.1 =
        upsert memoId {memo with sections := (upsert "earnings"
          (.narrative (reSearchEarningsRecord env)) memo.sections)} store := by
      simp [run_regeneration, hmemo]
    refine ⟨.narrative (reSearchEarningsRecord env),
      by simp [reSearchRecord], ?_⟩
    rw [hstore2]
    refine ⟨_, lookup_upsert_self .., lookup_upsert_self .., ?_, rfl, rfl, rfl,
      rfl, rfl, ?_⟩
    · intro k hk
      exact lookup_upsert_ne "earnings" k _ memo.sections hk
    · intro id hid
      exact lookup_upsert_ne memoId id _ store hid
  · have hstore2 : (run_regeneration env "peer" analyst instruction true store
        memoId currentContent).2.1 =
        upsert memoId {memo with sections := (upsert "peer"
          (.narrative (reSearchPeerRecord env)) memo.sections)} store := by
      simp [run_regeneration, hmemo]
    refine ⟨.narrative (reSearchPeerRecord env), by simp [reSearchRecord], ?_⟩
    rw [hstore2]
    refine ⟨_, lookup_upsert_self .., lookup_upsert_self .., ?_, rfl, rfl, rfl,
      rfl, rfl, ?_⟩
    · intro k hk
      exact lookup_upsert_ne "peer" k _ memo.sections hk
    · intro id hid
      exact lookup_upsert_ne memoId id _ store hid
  · cases hv : env.valuation with
    | ok result =>
        by_cases hst : result.status = "success"
        · have hstore2 : (run_regeneration env "valuation" analyst instruction
              true store memoId currentContent).2.1 =
              upsert memoId {memo with sections := (upsert "valuation"
                (.valuationRec (valuationPullRecord result
                  (parse_ticker_changes instruction
                    (existingTickersOf (memo.sections.lookup "valuation")))))
                memo.sections)} store := by
            simp [run_regeneration, hmemo, hv, hst]
          refine ⟨.valuationRec (valuationPullRecord result
            (parse_ticker_changes instruction
              (existingTickersOf (memo.sections.lookup "valuation")))),
            by simp [reSearchRecord, hv, hst], ?_⟩
          rw [hstore2]
          refine ⟨_, lookup_upsert_self .., lookup_upsert_self .., ?_, rfl, rfl,
            rfl, rfl, rfl, ?_⟩
          · intro k hk
            exact lookup_upsert_ne "valuation" k _ memo.sections hk
          · intro id hid
            exact lookup_upsert_ne memoId id _ store hid
        · exfalso
          simp [run_regeneration, hmemo, hv, hst] at hcomplete
    | error e =>
        exfalso
        simp [run_regeneration, hmemo, hv] at hcomplete

/-- Witness for C5: a completed bio re-search over the concrete store. -/
theorem re_search_full_replacement_witness :
    ∃ rec : SectionRecord,
      reSearchRecord regenEnvFail "bio" "Mike Mayo" memoA.firm "add a note"
        (existingTickersOf (memoA.sections.lookup "bio")) = some rec ∧
      ∃ memo2 : Memo,
        (run_regeneration regenEnvFail "bio" "Mike Mayo" "add a note" true
          storeA "m1" "").2.1.lookup "m1" = some memo2 ∧
        memo2.sections.lookup "bio" = some rec ∧
        (∀ k, k ≠ "bio" → memo2.sections.lookup k = memoA.sections.lookup k) ∧
        memo2.analyst = memoA.analyst ∧ memo2.firm = memoA.firm ∧
        memo2.company = memoA.company ∧ memo2.date = memoA.date ∧
        memo2.quality_check = memoA.quality_check ∧
        (∀ id, id ≠ "m1" →
          (run_regeneration regenEnvFail "bio" "Mike Mayo" "add a note" true
            storeA "m1" "").2.1.lookup id = storeA.lookup id) :=
  re_search_full_replacement regenEnvFail "bio" "Mike Mayo" "add a note"
    storeA "m1" "" memoA rfl (by decide) (by decide)

end IRMemo
